import Mathlib

/-!
Shallow embedding of the MAX30102 PPG heart-rate / SpO2 estimation firmware
(`src/Core/Src/ppg_algorithm.c`, `ppg_algorithm_v2.c`, `ppg_filter.c`),
together with theorems settling the claims made by the specification.

Modelling conventions:
* C `float` arithmetic is modelled by exact real arithmetic over `ℝ`.
* C integer types are modelled by `ℕ`/`ℤ`; where the source relies on the
  wrap-around of a fixed-width counter (`uint8_t`, `uint16_t`) the model wraps
  explicitly with `% 256` / `% 65536`.
* Fixed-size C arrays are modelled as total functions `ℕ → ℝ` (resp. `ℕ → ℤ`);
  the source only ever indexes them inside their declared bounds.
* The C bubble-sort used by the median filters computes the sorted permutation
  of its input; it is modelled by `List.insertionSort (· ≤ ·)`, which computes
  the same sorted list.
* The DWT cycle counter read by `DPT_Process` is an external input of the
  hardware; the model takes the measured cycle delta as an explicit oracle
  argument.
-/

noncomputable section

open scoped BigOperators

/-- Truncation of a real number toward zero: the semantics of the C cast
`(int32_t)x` for values in range. -/
def intTrunc (x : ℝ) : ℤ := if 0 ≤ x then ⌊x⌋ else -⌊-x⌋

/-- Sorted copy of a list of reals, as produced by the C bubble sorts. -/
def sortedList (l : List ℝ) : List ℝ := l.insertionSort (· ≤ ·)

/-- `median_filter` from `ppg_algorithm.c` (Method 1): sort `size` values and
take the middle element, or the mean of the two middle elements for an even
count; returns `0` for an empty input. -/
def m1_median_filter (l : List ℝ) : ℝ :=
  if l.length = 0 then 0
  else
    let t := sortedList l
    if l.length % 2 = 0 then (t.getD (l.length / 2 - 1) 0 + t.getD (l.length / 2) 0) / 2
    else t.getD (l.length / 2) 0

/-- `smooth_array` from `ppg_algorithm_v2.c`: mean of the strictly positive
entries, `0` if there are none. -/
def smooth_array (l : List ℝ) : ℝ :=
  let pos := l.filter (fun x => decide (0 < x))
  if pos.length = 0 then 0 else pos.sum / pos.length

/-- `median_filter` from `ppg_algorithm_v2.c` (Method 2): keep the strictly
positive entries, sort them, and take the middle (or mean of the two middle
values for an even count). -/
def m2_median_filter (l : List ℝ) : ℝ :=
  if l.length = 0 then 0
  else
    let v := l.filter (fun x => decide (0 < x))
    if v.length = 0 then 0
    else if v.length = 1 then v.getD 0 0
    else
      let t := sortedList v
      if v.length % 2 = 0 then (t.getD (v.length / 2 - 1) 0 + t.getD (v.length / 2) 0) / 2
      else t.getD (v.length / 2) 0

/-! ### Method 1 SpO2 estimator (`SpO2_State_t`, `ppg_algorithm.c`) -/

/-- `SpO2_State_t`. -/
structure SpO2State where
  r_history : ℕ → ℝ
  r_history_index : ℕ
  r_history_count : ℕ
  last_spo2 : ℝ
  spo2_valid : Bool

/-- `SpO2_Init`: zeroed state. -/
def SpO2_Init : SpO2State :=
  { r_history := fun _ => 0
    r_history_index := 0
    r_history_count := 0
    last_spo2 := 0
    spo2_valid := false }

/-- The empirical SpO2 calibration polynomial `-45.060 r² + 30.354 r + 94.845`. -/
def spo2Poly (r : ℝ) : ℝ := -45.060 * r * r + 30.354 * r + 94.845

/-- The SpO2 value that `SpO2_Calculate` computes after pushing `r` into the
R-history ring: the calibration polynomial applied to the mean of the filled
slots. -/
def spo2Candidate (s : SpO2State) (r : ℝ) : ℝ :=
  let hist := fun j => if j = s.r_history_index then r else s.r_history j
  let cnt := if s.r_history_count < 10 then s.r_history_count + 1 else s.r_history_count
  spo2Poly ((∑ i ∈ Finset.range cnt, hist i) / cnt)

/-- `SpO2_Calculate` from `ppg_algorithm.c`, returning the updated state and the
returned value. -/
def SpO2_Calculate (s : SpO2State) (red_ac_rms red_dc ir_ac_rms ir_dc : ℝ) :
    SpO2State × ℝ :=
  if red_dc < 1000 ∨ ir_dc < 1000 ∨ ir_ac_rms < 1 then
    ({ s with spo2_valid := false }, s.last_spo2)
  else
    let r := (red_ac_rms / red_dc) / (ir_ac_rms / ir_dc)
    if r < 0.1 ∨ 2 < r then ({ s with spo2_valid := false }, s.last_spo2)
    else
      let hist := fun j => if j = s.r_history_index then r else s.r_history j
      let idx := (s.r_history_index + 1) % 10
      let cnt := if s.r_history_count < 10 then s.r_history_count + 1 else s.r_history_count
      let spo2 := spo2Candidate s r
      if spo2 < 70 ∨ 100 < spo2 then
        ({ s with
            r_history := hist
            r_history_index := idx
            r_history_count := cnt
            spo2_valid := false }, s.last_spo2)
      else
        ({ s with
            r_history := hist
            r_history_index := idx
            r_history_count := cnt
            last_spo2 := spo2
            spo2_valid := true }, spo2)

/-- C3: whenever the computed SpO2 polynomial value lies outside [70,100] the
call returns the previous published value and clears `spo2_valid` (the
out-of-range value is never published), and whenever the computed R value lies
outside [0.1,2.0] the call likewise returns the previous value, clears the
flag, and leaves the whole R-history (and `last_spo2`) untouched, so the
calibration polynomial is never applied to that R. -/
theorem spo2_boundary_rejection :
    (∀ (s : SpO2State) (a b c d : ℝ),
      ¬(b < 1000 ∨ d < 1000 ∨ c < 1) →
      ¬((a / b) / (c / d) < 0.1 ∨ 2 < (a / b) / (c / d)) →
      (spo2Candidate s ((a / b) / (c / d)) < 70 ∨ 100 < spo2Candidate s ((a / b) / (c / d))) →
      (SpO2_Calculate s a b c d).2 = s.last_spo2 ∧
      (SpO2_Calculate s a b c d).1.spo2_valid = false ∧
      (SpO2_Calculate s a b c d).1.last_spo2 = s.last_spo2) ∧
    (∀ (s : SpO2State) (a b c d : ℝ),
      ¬(b < 1000 ∨ d < 1000 ∨ c < 1) →
      ((a / b) / (c / d) < 0.1 ∨ 2 < (a / b) / (c / d)) →
      (SpO2_Calculate s a b c d).1 = { s with spo2_valid := false } ∧
      (SpO2_Calculate s a b c d).2 = s.last_spo2) := by
  constructor
  · intro s a b c d hguard hr hout
    simp only [SpO2_Calculate, if_neg hguard, if_neg hr, if_pos hout]
    refine ⟨?_, ?_, ?_⟩ <;> trivial
  · intro s a b c d hguard hr
    simp only [SpO2_Calculate, if_neg hguard, if_pos hr]
    refine ⟨?_, ?_⟩ <;> trivial

/-- Witness for `spo2_boundary_rejection`: concrete inputs hitting the
polynomial-out-of-range branch (R = 2 gives SpO2 ≈ −24.7 < 70) and the
R-out-of-range branch (R = 3 > 2). -/
theorem spo2_boundary_rejection_witness :
    ((SpO2_Calculate SpO2_Init 20 2000 10 2000).2 = 0 ∧
      (SpO2_Calculate SpO2_Init 20 2000 10 2000).1.spo2_valid = false) ∧
    ((SpO2_Calculate SpO2_Init 30 2000 10 2000).1 = { SpO2_Init with spo2_valid := false } ∧
      (SpO2_Calculate SpO2_Init 30 2000 10 2000).2 = 0) := by
  have h1 := spo2_boundary_rejection.1 SpO2_Init 20 2000 10 2000
    (by norm_num) (by norm_num)
    (by
      left
      norm_num [spo2Candidate, spo2Poly, SpO2_Init, Finset.sum_range_one])
  have h2 := spo2_boundary_rejection.2 SpO2_Init 30 2000 10 2000
    (by norm_num) (by right; norm_num)
  exact ⟨⟨h1.1, h1.2.1⟩, h2⟩

/-- C10: when the weak-signal and R-range guards pass but the polynomial result
is out of range, the new R value has already been appended to the 10-slot ring
(index advanced, fill count bumped) before the rejection, while the returned
value and `last_spo2` are unchanged; the two earlier guard rejections leave the
state untouched except for the validity flag. -/
theorem spo2_reject_frame_effect :
    (∀ (s : SpO2State) (a b c d : ℝ),
      ¬(b < 1000 ∨ d < 1000 ∨ c < 1) →
      ¬((a / b) / (c / d) < 0.1 ∨ 2 < (a / b) / (c / d)) →
      (spo2Candidate s ((a / b) / (c / d)) < 70 ∨ 100 < spo2Candidate s ((a / b) / (c / d))) →
      (SpO2_Calculate s a b c d).1.r_history =
        (fun j => if j = s.r_history_index then (a / b) / (c / d) else s.r_history j) ∧
      (SpO2_Calculate s a b c d).1.r_history_index = (s.r_history_index + 1) % 10 ∧
      (SpO2_Calculate s a b c d).1.r_history_count =
        (if s.r_history_count < 10 then s.r_history_count + 1 else s.r_history_count) ∧
      (SpO2_Calculate s a b c d).1.last_spo2 = s.last_spo2 ∧
      (SpO2_Calculate s a b c d).2 = s.last_spo2) ∧
    (∀ (s : SpO2State) (a b c d : ℝ),
      (b < 1000 ∨ d < 1000 ∨ c < 1) →
      (SpO2_Calculate s a b c d).1 = { s with spo2_valid := false }) ∧
    (∀ (s : SpO2State) (a b c d : ℝ),
      ¬(b < 1000 ∨ d < 1000 ∨ c < 1) →
      ((a / b) / (c / d) < 0.1 ∨ 2 < (a / b) / (c / d)) →
      (SpO2_Calculate s a b c d).1 = { s with spo2_valid := false }) := by
  refine ⟨?_, ?_, ?_⟩
  · intro s a b c d hguard hr hout
    simp only [SpO2_Calculate, if_neg hguard, if_neg hr, if_pos hout]
    refine ⟨?_, ?_, ?_, ?_, ?_⟩ <;> trivial
  · intro s a b c d hguard
    simp only [SpO2_Calculate, if_pos hguard]
  · intro s a b c d hguard hr
    simp only [SpO2_Calculate, if_neg hguard, if_pos hr]

/-- Witness for `spo2_reject_frame_effect`: the polynomial-rejection path at
R = 2 does mutate the ring, and the two guard paths leave it untouched. -/
theorem spo2_reject_frame_effect_witness :
    ((SpO2_Calculate SpO2_Init 20 2000 10 2000).1.r_history_count = 1 ∧
      (SpO2_Calculate SpO2_Init 20 2000 10 2000).1.r_history_index = 1 ∧
      (SpO2_Calculate SpO2_Init 20 2000 10 2000).2 = 0) ∧
    (SpO2_Calculate SpO2_Init 20 500 10 2000).1 = { SpO2_Init with spo2_valid := false } ∧
    (SpO2_Calculate SpO2_Init 30 2000 10 2000).1 = { SpO2_Init with spo2_valid := false } := by
  have h1 := spo2_reject_frame_effect.1 SpO2_Init 20 2000 10 2000
    (by norm_num) (by norm_num)
    (by
      left
      norm_num [spo2Candidate, spo2Poly, SpO2_Init, Finset.sum_range_one])
  have h2 := spo2_reject_frame_effect.2.1 SpO2_Init 20 500 10 2000 (by norm_num)
  have h3 := spo2_reject_frame_effect.2.2 SpO2_Init 30 2000 10 2000
    (by norm_num) (by right; norm_num)
  refine ⟨⟨?_, ?_, h1.2.2.2.2⟩, h2, h3⟩
  · have h := h1.2.2.1
    norm_num [SpO2_Init] at h
    exact h
  · have h := h1.2.1
    norm_num [SpO2_Init] at h
    exact h

/-! ### Method 1 signal conditioner (`ppg_filter.c`) -/

/-- `BiquadState_t` (Direct Form II Transposed; the `y1`/`y2` fields exist in
the C struct but are never read or written by `biquad_filter`). -/
structure BiquadState where
  x1 : ℝ
  x2 : ℝ
  y1 : ℝ
  y2 : ℝ

/-- `biquad_filter`: one second-order section, Direct Form II Transposed. -/
def biquad_filter (input b0 b1 b2 a1 a2 : ℝ) (st : BiquadState) : ℝ × BiquadState :=
  let output := b0 * input + st.x1
  let nx1 := b1 * input - a1 * output + st.x2
  let nx2 := b2 * input - a2 * output
  (output, { st with x1 := nx1, x2 := nx2 })

/-- `PPG_FilterState_t`. -/
structure PPGFilterState where
  detrend_buffer : ℕ → ℝ
  detrend_index : ℕ
  detrend_sum : ℝ
  detrend_filled : Bool
  biquad0 : BiquadState
  biquad1 : BiquadState
  smooth_buffer : ℕ → ℝ
  smooth_index : ℕ
  dc_value : ℝ
  ac_squared_sum : ℝ
  sample_count : ℕ

/-- `PPG_Filter_Init`: zeroed state. -/
def PPG_Filter_Init : PPGFilterState :=
  { detrend_buffer := fun _ => 0
    detrend_index := 0
    detrend_sum := 0
    detrend_filled := false
    biquad0 := ⟨0, 0, 0, 0⟩
    biquad1 := ⟨0, 0, 0, 0⟩
    smooth_buffer := fun _ => 0
    smooth_index := 0
    dc_value := 0
    ac_squared_sum := 0
    sample_count := 0 }

/-- `detrend_signal`: moving-average baseline removal over a 32-sample ring. -/
def detrend_signal (s : PPGFilterState) (value : ℝ) : PPGFilterState × ℝ :=
  let sum0 := if s.detrend_filled then s.detrend_sum - s.detrend_buffer s.detrend_index
    else s.detrend_sum
  let buf := fun j => if j = s.detrend_index then value else s.detrend_buffer j
  let sum1 := sum0 + value
  let idx1 := s.detrend_index + 1
  let idx2 := if 32 ≤ idx1 then 0 else idx1
  let filled := if 32 ≤ idx1 then true else s.detrend_filled
  let count := if filled then 32 else idx2
  let count1 := if count = 0 then 1 else count
  let baseline := sum1 / count1
  ({ s with
      detrend_buffer := buf
      detrend_index := idx2
      detrend_sum := sum1
      detrend_filled := filled
      dc_value := baseline }, value - baseline)

/-- `PPG_Filter_Process`: detrend, two cascaded Butterworth biquad sections,
5-point output smoothing, and accumulation of the squared AC output. -/
def PPG_Filter_Process (s : PPGFilterState) (raw_value : ℕ) : PPGFilterState × ℝ :=
  let t := detrend_signal s (raw_value : ℝ)
  let s1 := t.1
  let f0 := biquad_filter t.2 0.00743916 0 (-0.00743916) (-1.86319070) 0.87439781 s1.biquad0
  let f1 := biquad_filter f0.1 1 0 (-1) (-1.94632328) 0.95124514 s1.biquad1
  let sb := fun j => if j = s1.smooth_index then f1.1 else s1.smooth_buffer j
  let si := (s1.smooth_index + 1) % 5
  let smoothed := (∑ i ∈ Finset.range 5, sb i) / 5
  ({ s1 with
      biquad0 := f0.2
      biquad1 := f1.2
      smooth_buffer := sb
      smooth_index := si
      ac_squared_sum := s1.ac_squared_sum + smoothed * smoothed
      sample_count := s1.sample_count + 1 }, smoothed)

/-- `PPG_Filter_GetDC`: non-destructive read of the baseline. -/
def PPG_Filter_GetDC (s : PPGFilterState) : ℝ := s.dc_value

/-- `PPG_Filter_GetACRMS`: read-and-clear RMS of the accumulated AC output;
returns 0 (without clearing) when no sample has been accumulated. -/
def PPG_Filter_GetACRMS (s : PPGFilterState) : PPGFilterState × ℝ :=
  if s.sample_count = 0 then (s, 0)
  else ({ s with ac_squared_sum := 0, sample_count := 0 },
    Real.sqrt (s.ac_squared_sum / s.sample_count))

/-- Run `PPG_Filter_Process` over a list of raw samples, collecting the
filtered AC outputs. -/
def processList (s : PPGFilterState) : List ℕ → PPGFilterState × List ℝ
  | [] => (s, [])
  | x :: xs =>
    let t := PPG_Filter_Process s x
    let r := processList t.1 xs
    (r.1, t.2 :: r.2)

/-- The squared-sum accumulator and sample counter accumulate exactly the
squares and the number of the AC outputs produced since the given state. -/
theorem processList_accum (ins : List ℕ) : ∀ s : PPGFilterState,
    (processList s ins).1.ac_squared_sum =
      s.ac_squared_sum + ((processList s ins).2.map (fun o => o * o)).sum ∧
    (processList s ins).1.sample_count = s.sample_count + ins.length ∧
    (processList s ins).2.length = ins.length := by
  induction ins with
  | nil => intro s; simp [processList]
  | cons x xs ih =>
    intro s
    have h := ih (PPG_Filter_Process s x).1
    have hacs : (PPG_Filter_Process s x).1.ac_squared_sum =
        s.ac_squared_sum + (PPG_Filter_Process s x).2 * (PPG_Filter_Process s x).2 := by
      simp [PPG_Filter_Process, detrend_signal]
    have hcnt : (PPG_Filter_Process s x).1.sample_count = s.sample_count + 1 := by
      simp [PPG_Filter_Process, detrend_signal]
    refine ⟨?_, ?_, ?_⟩
    · simp only [processList, List.map_cons, List.sum_cons]
      rw [h.1, hacs]; ring
    · simp only [processList]
      rw [h.2.1, hcnt, List.length_cons]; omega
    · simp only [processList, List.length_cons]
      rw [h.2.2]

/-- C7: for every filter state holding no accumulated AC data, after processing
a nonempty batch of raw samples `PPG_Filter_GetACRMS` returns the
root-mean-square of exactly the AC outputs produced by that batch (square root
of the mean of their squares) and returns a state identical to the processed
one except that the squared-sum accumulator and the sample counter are cleared
to zero. -/
theorem filter_ac_rms_read_and_clear (s0 : PPGFilterState) (ins : List ℕ)
    (hsum : s0.ac_squared_sum = 0) (hcnt : s0.sample_count = 0) (hne : ins ≠ []) :
    (PPG_Filter_GetACRMS (processList s0 ins).1).2 =
      Real.sqrt ((((processList s0 ins).2.map (fun o => o * o)).sum) /
        ((processList s0 ins).2.length)) ∧
    (PPG_Filter_GetACRMS (processList s0 ins).1).1 =
      { (processList s0 ins).1 with ac_squared_sum := 0, sample_count := 0 } := by
  have h := processList_accum ins s0
  have hlen : (processList s0 ins).2.length = ins.length := h.2.2
  have hc : (processList s0 ins).1.sample_count = ins.length := by
    rw [h.2.1, hcnt]; omega
  have hnz : (processList s0 ins).1.sample_count ≠ 0 := by
    rw [hc]
    exact (List.length_pos.2 hne).ne'
  have ha : (processList s0 ins).1.ac_squared_sum =
      (((processList s0 ins).2.map (fun o => o * o)).sum) := by
    rw [h.1, hsum, zero_add]
  constructor
  · simp only [PPG_Filter_GetACRMS, if_neg hnz]
    rw [ha, hc, hlen]
  · simp only [PPG_Filter_GetACRMS, if_neg hnz]

/-- Witness for `filter_ac_rms_read_and_clear`: one raw sample pushed through a
freshly initialized filter. -/
theorem filter_ac_rms_read_and_clear_witness :
    (PPG_Filter_GetACRMS (processList PPG_Filter_Init [100]).1).2 =
      Real.sqrt ((((processList PPG_Filter_Init [100]).2.map (fun o => o * o)).sum) /
        ((processList PPG_Filter_Init [100]).2.length)) ∧
    (PPG_Filter_GetACRMS (processList PPG_Filter_Init [100]).1).1 =
      { (processList PPG_Filter_Init [100]).1 with ac_squared_sum := 0, sample_count := 0 } :=
  filter_ac_rms_read_and_clear PPG_Filter_Init [100] rfl rfl (by simp)

/-! ### Method 2 sliding DPT transform (`ppg_algorithm_v2.c`)

Constants from `ppg_algorithm_v2.h`: `DPT_MIN_PERIOD = 40`,
`DPT_MAX_PERIOD = 200`, `DPT_PERIOD_RANGE = 161`, `DPT_BUFFER_SIZE = 1000`. -/

/-- `DPT_Transform_t`. -/
structure DPTTransform where
  real : ℕ → ℝ
  imag : ℕ → ℝ
  magnitude : ℕ → ℝ
  recursive_buffer : ℕ → ℤ
  buffer_index : ℕ
  sample_count : ℕ
  buffer_full : Bool

/-- `dpt_transform_init`: zeroed state. -/
def dpt_transform_init : DPTTransform :=
  { real := fun _ => 0
    imag := fun _ => 0
    magnitude := fun _ => 0
    recursive_buffer := fun _ => 0
    buffer_index := 0
    sample_count := 0
    buffer_full := false }

/-- The cosine basis written by `precompute_basis_functions`:
`cos(-2π / period)` for each period index below 161. -/
def dptInitCos : ℕ → ℝ := fun p =>
  if p < 161 then Real.cos (-(2 * Real.pi) / (40 + (p : ℝ))) else 0

/-- The sine basis written by `precompute_basis_functions`:
`sin(-2π / period)` for each period index below 161. -/
def dptInitSin : ℕ → ℝ := fun p =>
  if p < 161 then Real.sin (-(2 * Real.pi) / (40 + (p : ℝ))) else 0

/-- `dpt_transform_process`: append the new AC sample to the circular buffer
and, once the buffer is full, update every period accumulator by the sliding
recurrence `T_new = e^(-j2π/P) · (T_old - x_old + x_new)`. -/
def dpt_transform_process (dpt : DPTTransform) (ac_value : ℤ)
    (cos_basis sin_basis : ℕ → ℝ) : DPTTransform :=
  let buf := fun j => if j = dpt.buffer_index then ac_value else dpt.recursive_buffer j
  let current_idx := dpt.buffer_index
  let idx := (dpt.buffer_index + 1) % 1000
  let cnt := (dpt.sample_count + 1) % 65536
  let full := if 1000 ≤ cnt then true else dpt.buffer_full
  let base : DPTTransform :=
    { dpt with
        recursive_buffer := buf
        buffer_index := idx
        sample_count := cnt
        buffer_full := full }
  if full = false then base
  else
    let upd := fun p =>
      dpt.real p - ((buf ((current_idx + 1000 - (40 + p)) % 1000) : ℤ) : ℝ) + (ac_value : ℝ)
    let real1 := fun p => if p < 161 then
        upd p * cos_basis p - dpt.imag p * sin_basis p
      else dpt.real p
    let imag1 := fun p => if p < 161 then
        upd p * sin_basis p + dpt.imag p * cos_basis p
      else dpt.imag p
    { base with real := real1, imag := imag1 }

/-- The complex accumulator `(real[p], imag[p])` of a transform state. -/
def dptAccum (d : DPTTransform) (p : ℕ) : ℂ :=
  (d.real p : ℂ) + (d.imag p : ℂ) * Complex.I

/-- The per-period rotation `e^(-j·2π/P)` of the sliding DPT. -/
def dptRot (P : ℕ) : ℂ := Complex.exp ((((-(2 * Real.pi) / (P : ℝ)) : ℝ) : ℂ) * Complex.I)

/-- The from-scratch Discrete Period Transform sum of the most recent `P`
samples (`recent` lists samples newest first), each sample rotated by the
per-period basis: sample `k` carries `k+1` applications of the rotation, which
is precisely the phase the incremental recurrence assigns. -/
def dptWindowSum (P : ℕ) (recent : List ℤ) : ℂ :=
  ∑ k ∈ Finset.range P, ((recent.getD k 0 : ℤ) : ℂ) * dptRot P ^ (k + 1)

/-- The rotation basis stored by `DPT_Init` is exactly `dptRot` in rectangular
coordinates. -/
theorem dptRot_eq_basis (p : ℕ) (hp : p < 161) :
    dptRot (40 + p) = (dptInitCos p : ℂ) + (dptInitSin p : ℂ) * Complex.I := by
  have : ((40 + p : ℕ) : ℝ) = 40 + (p : ℝ) := by push_cast; ring
  rw [dptRot, dptInitCos, dptInitSin, if_pos hp, if_pos hp, this, Complex.exp_mul_I]
  simp [Complex.ofReal_cos, Complex.ofReal_sin]

/-- The rotation has exact order dividing `P`: `P` incremental rotations make a
full turn. -/
theorem dptRot_pow (P : ℕ) (hP : 0 < P) : dptRot P ^ P = 1 := by
  rw [dptRot, ← Complex.exp_nat_mul]
  have hPne : (P : ℂ) ≠ 0 := Nat.cast_ne_zero.2 hP.ne'
  have : (P : ℂ) * ((((-(2 * Real.pi) / (P : ℝ)) : ℝ) : ℂ) * Complex.I) =
      -(2 * (Real.pi : ℂ) * Complex.I) := by
    push_cast
    field_simp [hPne]
    ring
  rw [this, Complex.exp_neg, Complex.exp_two_pi_mul_I, inv_one]

/-- Recurrence satisfied by the windowed DPT sum: consuming one new sample
rotates the whole window and exchanges the newest sample for the one `P`
positions back. -/
theorem dptWindowSum_cons (P : ℕ) (hP : 0 < P) (x : ℤ) (hist : List ℤ) :
    dptWindowSum P (x :: hist) =
      dptRot P * (dptWindowSum P hist - ((hist.getD (P - 1) 0 : ℤ) : ℂ) + (x : ℂ)) := by
  obtain ⟨n, rfl⟩ : ∃ n, P = n + 1 := ⟨P - 1, (Nat.succ_pred_eq_of_pos hP).symm⟩
  rw [dptWindowSum, Finset.sum_range_succ']
  have hshift : ∀ i, (((x :: hist).getD (i + 1) 0 : ℤ) : ℂ) * dptRot (n + 1) ^ (i + 1 + 1) =
      dptRot (n + 1) * (((hist.getD i 0 : ℤ) : ℂ) * dptRot (n + 1) ^ (i + 1)) := by
    intro i
    rw [List.getD_cons_succ]
    ring
  rw [Finset.sum_congr rfl (fun i _ => hshift i), ← Finset.mul_sum]
  have hsum : ∑ i ∈ Finset.range n, ((hist.getD i 0 : ℤ) : ℂ) * dptRot (n + 1) ^ (i + 1) =
      dptWindowSum (n + 1) hist - ((hist.getD n 0 : ℤ) : ℂ) * dptRot (n + 1) ^ (n + 1) := by
    rw [dptWindowSum, Finset.sum_range_succ]
    ring
  rw [hsum, dptRot_pow (n + 1) hP]
  simp only [List.getD_cons_zero, Nat.add_sub_cancel]
  ring

/-- C1 (amended, part 1): the incremental update of `dpt_transform_process`
preserves the windowed-sum invariant. If, for period `P = 40 + p`, the complex
accumulator equals the DPT sum of the most recent `P` samples (`hist` lists
the already-processed samples newest first, and the circular buffer holds them
at the expected positions), then after processing one more sample `x` the
accumulator equals the DPT sum of the new most recent `P` samples. -/
theorem dpt_window_preservation (s : DPTTransform) (hist : List ℤ) (x : ℤ) (p : ℕ)
    (hp : p < 161) (hfull : s.buffer_full = true) (hidx : s.buffer_index < 1000)
    (hbuf : ∀ k, k < 200 → s.recursive_buffer ((s.buffer_index + 999 - k) % 1000) = hist.getD k 0)
    (hinv : dptAccum s p = dptWindowSum (40 + p) hist) :
    dptAccum (dpt_transform_process s x dptInitCos dptInitSin) p =
      dptWindowSum (40 + p) (x :: hist) := by
  have hfull2 : (if 1000 ≤ (s.sample_count + 1) % 65536 then true else s.buffer_full) = true := by
    rw [hfull]; exact ite_self true
  have hne : (s.buffer_index + 1000 - (40 + p)) % 1000 ≠ s.buffer_index := by
    intro h
    have h40 : 40 + p ≤ 1000 := by omega
    have hrw : s.buffer_index + 1000 - (40 + p) = s.buffer_index + (1000 - (40 + p)) := by omega
    rw [hrw] at h
    have hmod : (s.buffer_index + (1000 - (40 + p))) % 1000 = s.buffer_index % 1000 := by
      rw [h, Nat.mod_eq_of_lt hidx]
    have hdvd : 1000 ∣ (1000 - (40 + p)) := by
      have := (Nat.modEq_iff_dvd' (Nat.le_add_right s.buffer_index (1000 - (40 + p)))).1
        hmod.symm
      simpa using this
    have hlt : 1000 - (40 + p) < 1000 := by omega
    have hpos : 0 < 1000 - (40 + p) := by omega
    exact absurd (Nat.le_of_dvd hpos hdvd) (by omega)
  have hold : ((s.buffer_index + 1000 - (40 + p)) % 1000) = ((s.buffer_index + 999 - (39 + p)) % 1000) := by
    congr 1
    omega
  have holdval : s.recursive_buffer ((s.buffer_index + 1000 - (40 + p)) % 1000) =
      hist.getD (39 + p) 0 := by
    rw [hold]
    exact hbuf (39 + p) (by omega)
  have hP : 0 < 40 + p := by omega
  have hgetD : (40 + p) - 1 = 39 + p := by omega
  rw [dptWindowSum_cons (40 + p) hP x hist, ← hinv, hgetD, dptRot_eq_basis p hp]
  simp only [dpt_transform_process, dptAccum, if_neg (by rw [hfull2]; simp : ¬(if 1000 ≤ (s.sample_count + 1) % 65536 then true else s.buffer_full) = false)]
  simp only [if_pos hp, if_neg hne]
  rw [holdval]
  apply Complex.ext <;>
    simp [Complex.add_re, Complex.add_im, Complex.mul_re, Complex.mul_im, Complex.sub_re,
      Complex.sub_im, Complex.I_re, Complex.I_im, Complex.ofReal_re, Complex.ofReal_im] <;>
    ring

/-- Witness for `dpt_window_preservation`: the all-zero full state with an
all-zero history and a zero input satisfies the hypotheses, and the theorem
transports the window invariant through one update. -/
theorem dpt_window_preservation_witness :
    dptAccum (dpt_transform_process
        { dpt_transform_init with buffer_full := true, sample_count := 1000 }
        0 dptInitCos dptInitSin) 0 = dptWindowSum 40 ((0 : ℤ) :: []) := by
  have h := dpt_window_preservation
    { dpt_transform_init with buffer_full := true, sample_count := 1000 }
    [] 0 0 (by omega) rfl (by simp [dpt_transform_init]) (by
      intro k hk
      simp [dpt_transform_init])
    (by simp [dptAccum, dptWindowSum, dpt_transform_init])
  simpa using h

/-- Run a transform channel from a given state over a list of AC samples. -/
def dptRunFrom (d : DPTTransform) (ins : List ℤ) (cb sb : ℕ → ℝ) : DPTTransform :=
  ins.foldl (fun t a => dpt_transform_process t a cb sb) d

/-- Run a transform channel from the initial state with the `DPT_Init` basis. -/
def dptTransformRun (ins : List ℤ) : DPTTransform :=
  dptRunFrom dpt_transform_init ins dptInitCos dptInitSin

/-- During the fill phase (fewer than 1000 samples) the transform only records
samples: the accumulators stay zero, the buffer holds the samples at their
arrival positions, and the bookkeeping counters advance. -/
theorem dptTransformRun_fill (ins : List ℤ) (h : ins.length ≤ 999) :
    (∀ q, (dptTransformRun ins).real q = 0) ∧
    (∀ q, (dptTransformRun ins).imag q = 0) ∧
    (∀ j, (dptTransformRun ins).recursive_buffer j = ins.getD j 0) ∧
    (dptTransformRun ins).buffer_index = ins.length ∧
    (dptTransformRun ins).sample_count = ins.length ∧
    (dptTransformRun ins).buffer_full = false := by
  induction ins using List.reverseRecOn with
  | nil =>
    refine ⟨fun q => rfl, fun q => rfl, fun j => ?_, rfl, rfl, rfl⟩
    simp [dptTransformRun, dptRunFrom, dpt_transform_init]
  | append_singleton xs a ih =>
    have hlt : xs.length + 1 ≤ 999 := by
      rw [List.length_append, List.length_singleton] at h
      exact h
    have hlen : xs.length ≤ 999 := by omega
    obtain ⟨hre, him, hbuf, hidx, hcnt, hfull⟩ := ih hlen
    have hrun : dptTransformRun (xs ++ [a]) =
        dpt_transform_process (dptTransformRun xs) a dptInitCos dptInitSin := by
      simp [dptTransformRun, dptRunFrom]
    have hcond : (if 1000 ≤ ((dptTransformRun xs).sample_count + 1) % 65536 then true
        else (dptTransformRun xs).buffer_full) = false := by
      rw [hcnt, hfull]
      have h1 : (xs.length + 1) % 65536 = xs.length + 1 := Nat.mod_eq_of_lt (by omega)
      rw [h1, if_neg (by omega)]
    rw [hrun]
    refine ⟨?_, ?_, ?_, ?_, ?_, ?_⟩
    · intro q
      simp only [dpt_transform_process, if_pos hcond]
      exact hre q
    · intro q
      simp only [dpt_transform_process, if_pos hcond]
      exact him q
    · intro j
      simp only [dpt_transform_process, if_pos hcond]
      by_cases hj : j = (dptTransformRun xs).buffer_index
      · rw [if_pos hj, hj, hidx,
          List.getD_append_right xs [a] 0 xs.length (le_refl _)]
        simp
      · rw [if_neg hj, hbuf j]
        rw [hidx] at hj
        by_cases hj2 : j < xs.length
        · rw [List.getD_append xs [a] 0 j hj2]
        · have hgt : xs.length < j := by omega
          rw [List.getD_eq_default _ _ (Nat.le_of_lt hgt), List.getD_eq_default]
          rw [List.length_append, List.length_singleton]
          omega
    · simp only [dpt_transform_process, if_pos hcond]
      rw [hidx, List.length_append, List.length_singleton,
        Nat.mod_eq_of_lt (by omega)]
    · simp only [dpt_transform_process, if_pos hcond]
      rw [hcnt, List.length_append, List.length_singleton,
        Nat.mod_eq_of_lt (by omega)]
    · simp only [dpt_transform_process, if_pos hcond]
      rw [hcnt, hfull]
      have h1 : (xs.length + 1) % 65536 = xs.length + 1 := Nat.mod_eq_of_lt (by omega)
      rw [h1, if_neg (by omega)]

/-- Entries of a zero-filled replicate list read back as zero. -/
theorem getD_replicate_zero (r n : ℕ) : (List.replicate r (0 : ℤ)).getD n 0 = 0 := by
  by_cases h : n < r
  · rw [List.getD_eq_getElem _ _ (by rw [List.length_replicate]; exact h)]
    exact List.getElem_replicate 0 _
  · exact List.getD_eq_default _ _ (by rw [List.length_replicate]; omega)

/-- Bookkeeping fields of one `dpt_transform_process` step, independent of
whether the update fires. -/
theorem dpt_process_bookkeeping (dpt : DPTTransform) (ac : ℤ) (cb sb : ℕ → ℝ) :
    (dpt_transform_process dpt ac cb sb).recursive_buffer =
      (fun j => if j = dpt.buffer_index then ac else dpt.recursive_buffer j) ∧
    (dpt_transform_process dpt ac cb sb).buffer_index = (dpt.buffer_index + 1) % 1000 ∧
    (dpt_transform_process dpt ac cb sb).sample_count = (dpt.sample_count + 1) % 65536 ∧
    (dpt_transform_process dpt ac cb sb).buffer_full =
      (if 1000 ≤ (dpt.sample_count + 1) % 65536 then true else dpt.buffer_full) ∧
    (dpt_transform_process dpt ac cb sb).magnitude = dpt.magnitude := by
  simp only [dpt_transform_process]
  refine ⟨?_, ?_, ?_, ?_, ?_⟩ <;> (split <;> split <;> rfl)

/-- The real accumulator written by a `dpt_transform_process` step whose update
fires, for an in-range period index. -/
theorem dpt_process_full_real (dpt : DPTTransform) (ac : ℤ) (cb sb : ℕ → ℝ)
    (h : (if 1000 ≤ (dpt.sample_count + 1) % 65536 then true else dpt.buffer_full) = true)
    (p : ℕ) (hp : p < 161) :
    (dpt_transform_process dpt ac cb sb).real p =
      (dpt.real p -
        (((if (dpt.buffer_index + 1000 - (40 + p)) % 1000 = dpt.buffer_index then ac
          else dpt.recursive_buffer ((dpt.buffer_index + 1000 - (40 + p)) % 1000)) : ℤ) : ℝ) +
        (ac : ℝ)) * cb p - dpt.imag p * sb p := by
  simp only [dpt_transform_process]
  rw [h]
  simp [hp]

/-- The imaginary accumulator written by a `dpt_transform_process` step whose
update fires, for an in-range period index. -/
theorem dpt_process_full_imag (dpt : DPTTransform) (ac : ℤ) (cb sb : ℕ → ℝ)
    (h : (if 1000 ≤ (dpt.sample_count + 1) % 65536 then true else dpt.buffer_full) = true)
    (p : ℕ) (hp : p < 161) :
    (dpt_transform_process dpt ac cb sb).imag p =
      (dpt.real p -
        (((if (dpt.buffer_index + 1000 - (40 + p)) % 1000 = dpt.buffer_index then ac
          else dpt.recursive_buffer ((dpt.buffer_index + 1000 - (40 + p)) % 1000)) : ℤ) : ℝ) +
        (ac : ℝ)) * sb p + dpt.imag p * cb p := by
  simp only [dpt_transform_process]
  rw [h]
  simp [hp]

/-- Concrete AC sample trace refuting C1 as stated: 998 zero samples, then a
single 1, then a final 0 that triggers the first incremental update. -/
def c1Inputs : List ℤ := List.replicate 998 0 ++ [1, 0]

/-- C1 (counterexample): at the first update after the history buffer fills,
the incremental accumulator for period 40 is still zero (it was never seeded
with the window contents), while the from-scratch DPT sum of the most recent
40 samples is the nonzero value `rot²` contributed by the `1` two samples back.
The claimed invariant therefore fails at this reachable full state. -/
theorem dpt_window_counterexample :
    (dptTransformRun c1Inputs).buffer_full = true ∧
    dptAccum (dptTransformRun c1Inputs) 0 ≠ dptWindowSum 40 c1Inputs.reverse := by
  have hsplit : c1Inputs = (List.replicate 998 (0 : ℤ) ++ [1]) ++ [0] := by
    rw [c1Inputs, List.append_assoc]
    congr 1
  have hlen : (List.replicate 998 (0 : ℤ) ++ [1]).length = 999 := by
    rw [List.length_append, List.length_replicate, List.length_singleton]
  obtain ⟨hre, him, hbuf, hidx, hcnt, hfull⟩ :=
    dptTransformRun_fill (List.replicate 998 (0 : ℤ) ++ [1]) (by rw [hlen])
  have hrun : dptTransformRun c1Inputs =
      dpt_transform_process (dptTransformRun (List.replicate 998 (0 : ℤ) ++ [1]))
        0 dptInitCos dptInitSin := by
    rw [hsplit]
    unfold dptTransformRun dptRunFrom
    rw [List.foldl_append, List.foldl_cons, List.foldl_nil]
  have hold : (dptTransformRun (List.replicate 998 (0 : ℤ) ++ [1])).recursive_buffer 959 = 0 := by
    rw [hbuf 959, List.getD_append _ _ _ _ (by rw [List.length_replicate]; norm_num),
      getD_replicate_zero]
  have hcondT : (if 1000 ≤ ((dptTransformRun (List.replicate 998 (0 : ℤ) ++ [1])).sample_count + 1) % 65536
      then true else (dptTransformRun (List.replicate 998 (0 : ℤ) ++ [1])).buffer_full) = true := by
    rw [hcnt, hlen]
    norm_num
  have hfullC : (dptTransformRun c1Inputs).buffer_full = true := by
    rw [hrun, (dpt_process_bookkeeping _ 0 dptInitCos dptInitSin).2.2.2.1, hcondT]
  have hreal : (dptTransformRun c1Inputs).real 0 = 0 := by
    rw [hrun, dpt_process_full_real _ 0 dptInitCos dptInitSin hcondT 0 (by norm_num)]
    rw [hidx, hlen]
    rw [if_neg (by norm_num : ¬(999 + 1000 - (40 + 0)) % 1000 = 999)]
    have h959 : (999 + 1000 - (40 + 0)) % 1000 = 959 := by norm_num
    rw [h959, hold, hre 0, him 0]
    norm_num
  have himag : (dptTransformRun c1Inputs).imag 0 = 0 := by
    rw [hrun, dpt_process_full_imag _ 0 dptInitCos dptInitSin hcondT 0 (by norm_num)]
    rw [hidx, hlen]
    rw [if_neg (by norm_num : ¬(999 + 1000 - (40 + 0)) % 1000 = 999)]
    have h959 : (999 + 1000 - (40 + 0)) % 1000 = 959 := by norm_num
    rw [h959, hold, hre 0, him 0]
    norm_num
  have hrev : c1Inputs.reverse = 0 :: 1 :: List.replicate 998 (0 : ℤ) := by
    rw [c1Inputs, List.reverse_append, List.reverse_replicate]
    rw [show ([1, 0] : List ℤ).reverse = [0, 1] from rfl]
    rfl
  have hws : dptWindowSum 40 c1Inputs.reverse = dptRot 40 ^ 2 := by
    rw [dptWindowSum, hrev]
    rw [Finset.sum_eq_single_of_mem 1 (Finset.mem_range.mpr (by norm_num))]
    · rw [List.getD_cons_succ, List.getD_cons_zero]
      push_cast
      ring
    · intro b hb hne
      match b with
      | 0 =>
        rw [List.getD_cons_zero]
        push_cast
        ring
      | 1 => exact absurd rfl hne
      | (n + 2) =>
        rw [List.getD_cons_succ, List.getD_cons_succ, getD_replicate_zero]
        push_cast
        ring
  refine ⟨hfullC, ?_⟩
  rw [hws]
  have hacc : dptAccum (dptTransformRun c1Inputs) 0 = 0 := by
    rw [dptAccum, hreal, himag]
    push_cast
    ring
  rw [hacc]
  exact (Ne.symm (pow_ne_zero 2 (Complex.exp_ne_zero _)))

/-- `compute_magnitude_spectrum`: magnitude `sqrt(re²+im²)` normalized by the
period length, for every in-range period index. -/
def compute_magnitude_spectrum (dpt : DPTTransform) : DPTTransform :=
  { dpt with
      magnitude := fun i => if i < 161 then
          Real.sqrt (dpt.real i * dpt.real i + dpt.imag i * dpt.imag i) / (40 + (i : ℝ))
        else dpt.magnitude i }

/-- One iteration of the maximum scan in `find_peak_period`. -/
def peakScanStep (mag : ℕ → ℝ) (st : ℝ × ℕ) (i : ℕ) : ℝ × ℕ :=
  if mag i > st.1 then (mag i, i) else st

/-- The running maximum found by `find_peak_period`'s scan. -/
def dptMaxMagnitude (dpt : DPTTransform) : ℝ :=
  ((List.range 161).foldl (peakScanStep dpt.magnitude) (0, 0)).1

/-- The period index of the maximum found by `find_peak_period`'s scan. -/
def dptPeakIndex (dpt : DPTTransform) : ℕ :=
  ((List.range 161).foldl (peakScanStep dpt.magnitude) (0, 0)).2

/-- The median magnitude computed by `find_peak_period` (element 80 of the
sorted copy of the 161 magnitudes). -/
def dptMedianMagnitude (dpt : DPTTransform) : ℝ :=
  (sortedList ((List.range 161).map dpt.magnitude)).getD 80 0

/-- The adaptive threshold `MIN_PEAK_MAGNITUDE + 0.5 · median`, clamped below
by `MIN_PEAK_MAGNITUDE = 0.5`. -/
def dptAdaptiveThreshold (dpt : DPTTransform) : ℝ :=
  let thr := 0.5 + dptMedianMagnitude dpt * 0.5
  if thr < 0.5 then 0.5 else thr

/-- `find_peak_period`: the period of the scanned maximum, or 0 when the
maximum is below the adaptive threshold. -/
def find_peak_period (dpt : DPTTransform) : ℕ :=
  if dptMaxMagnitude dpt < dptAdaptiveThreshold dpt then 0
  else 40 + dptPeakIndex dpt

/-- Reading a replicated list at any position with the replicated value as
default yields that value. -/
theorem getD_replicate {α : Type} (a : α) (r n : ℕ) :
    (List.replicate r a).getD n a = a := by
  by_cases h : n < r
  · rw [List.getD_eq_getElem _ _ (by rw [List.length_replicate]; exact h)]
    exact List.getElem_replicate a _
  · exact List.getD_eq_default _ _ (by rw [List.length_replicate]; omega)

/-- A constant list is sorted. -/
theorem sorted_replicate (n : ℕ) (a : ℝ) :
    List.Sorted (· ≤ ·) (List.replicate n a) := by
  induction n with
  | zero => simp
  | succ m ih =>
    rw [List.replicate_succ, List.sorted_cons]
    exact ⟨fun b hb => le_of_eq (List.eq_of_mem_replicate hb).symm, ih⟩

/-- Sorting a constant list changes nothing. -/
theorem sortedList_replicate (n : ℕ) (a : ℝ) :
    sortedList (List.replicate n a) = List.replicate n a := by
  exact List.eq_of_perm_of_sorted (List.perm_insertionSort _ _)
    (List.sorted_insertionSort _ _) (sorted_replicate n a)

/-- The running maximum of the peak scan never decreases. -/
theorem peakScan_fst_mono (mag : ℕ → ℝ) (l : List ℕ) : ∀ st : ℝ × ℕ,
    st.1 ≤ (l.foldl (peakScanStep mag) st).1 := by
  induction l with
  | nil => intro st; simp
  | cons i t ih =>
    intro st
    refine le_trans ?_ (ih (peakScanStep mag st i))
    rw [peakScanStep]
    split
    · exact le_of_lt (by assumption)
    · exact le_refl _

/-- Every scanned magnitude is bounded by the final running maximum. -/
theorem peakScan_bound (mag : ℕ → ℝ) (l : List ℕ) : ∀ st : ℝ × ℕ, ∀ i ∈ l,
    mag i ≤ (l.foldl (peakScanStep mag) st).1 := by
  induction l with
  | nil => intro st i hi; simp at hi
  | cons j t ih =>
    intro st i hi
    rcases List.mem_cons.1 hi with h | h
    · subst h
      refine le_trans ?_ (peakScan_fst_mono mag t (peakScanStep mag st i))
      rw [peakScanStep]
      split
      · exact le_refl _
      · linarith [not_lt.1 (by assumption : ¬mag i > st.1)]
    · exact ih (peakScanStep mag st j) i h

/-- The scan state either records a genuinely attained magnitude or is still
the initial `(0, 0)`. -/
theorem peakScan_attained (mag : ℕ → ℝ) (l : List ℕ) : ∀ st : ℝ × ℕ,
    (mag st.2 = st.1 ∨ st = (0, 0)) →
    (mag ((l.foldl (peakScanStep mag) st)).2 = (l.foldl (peakScanStep mag) st).1 ∨
      l.foldl (peakScanStep mag) st = (0, 0)) := by
  induction l with
  | nil => intro st h; simpa using h
  | cons j t ih =>
    intro st h
    apply ih
    rw [peakScanStep]
    split
    · exact Or.inl rfl
    · exact h

/-- The scan's recorded index is the initial one or a scanned index. -/
theorem peakScan_index_mem (mag : ℕ → ℝ) (l : List ℕ) : ∀ st : ℝ × ℕ,
    (l.foldl (peakScanStep mag) st).2 = st.2 ∨ (l.foldl (peakScanStep mag) st).2 ∈ l := by
  induction l with
  | nil => intro st; simp
  | cons j t ih =>
    intro st
    rw [List.foldl_cons]
    rcases ih (peakScanStep mag st j) with h | h
    · rw [h]
      by_cases hc : mag j > st.1
      · rw [peakScanStep, if_pos hc]
        exact Or.inr (List.mem_cons_self j t)
      · rw [peakScanStep, if_neg hc]
        exact Or.inl rfl
    · exact Or.inr (List.mem_cons_of_mem j h)

/-- A scan step with no improving element leaves the state unchanged. -/
theorem peakScan_no_improve (mag : ℕ → ℝ) (l : List ℕ) : ∀ st : ℝ × ℕ,
    (∀ i ∈ l, ¬(mag i > st.1)) → l.foldl (peakScanStep mag) st = st := by
  induction l with
  | nil => intro st _; rfl
  | cons j t ih =>
    intro st h
    have hj : peakScanStep mag st j = st := by
      rw [peakScanStep, if_neg (h j (List.mem_cons_self j t))]
    rw [List.foldl_cons, hj]
    exact ih st (fun i hi => h i (List.mem_cons_of_mem j hi))

/-- Computed magnitudes are nonnegative on the scanned range. -/
theorem computed_mag_nonneg (t : DPTTransform) (i : ℕ) (hi : i < 161) :
    0 ≤ (compute_magnitude_spectrum t).magnitude i := by
  simp only [compute_magnitude_spectrum, if_pos hi]
  positivity

/-- C5 (amended): on a computed magnitude spectrum, `find_peak_period` returns
0 exactly when the maximum normalized magnitude is strictly below the adaptive
threshold `0.5 + 0.5 · median`; when the maximum reaches the threshold
(equality included, which is where the original claim's strict "exceeds"
fails) it returns `40 + peak_index`, a period in range whose magnitude attains
the maximum of the whole spectrum. -/
theorem find_peak_period_spec (t : DPTTransform) :
    (dptMaxMagnitude (compute_magnitude_spectrum t) <
        dptAdaptiveThreshold (compute_magnitude_spectrum t) →
      find_peak_period (compute_magnitude_spectrum t) = 0) ∧
    (dptAdaptiveThreshold (compute_magnitude_spectrum t) ≤
        dptMaxMagnitude (compute_magnitude_spectrum t) →
      find_peak_period (compute_magnitude_spectrum t) =
        40 + dptPeakIndex (compute_magnitude_spectrum t) ∧
      dptPeakIndex (compute_magnitude_spectrum t) < 161 ∧
      (compute_magnitude_spectrum t).magnitude (dptPeakIndex (compute_magnitude_spectrum t)) =
        dptMaxMagnitude (compute_magnitude_spectrum t) ∧
      ∀ j, j < 161 → (compute_magnitude_spectrum t).magnitude j ≤
        dptMaxMagnitude (compute_magnitude_spectrum t)) := by
  constructor
  · intro h
    rw [find_peak_period, if_pos h]
  · intro h
    refine ⟨?_, ?_, ?_, ?_⟩
    · rw [find_peak_period, if_neg (not_lt.2 h)]
    · rcases peakScan_index_mem (compute_magnitude_spectrum t).magnitude (List.range 161) (0, 0)
        with hm | hm
      · rw [dptPeakIndex, hm]
        norm_num
      · rw [dptPeakIndex]
        exact List.mem_range.1 hm
    · rcases peakScan_attained (compute_magnitude_spectrum t).magnitude (List.range 161) (0, 0)
        (Or.inr rfl) with hm | hm
      · exact hm
      · rw [dptPeakIndex, dptMaxMagnitude, hm]
        have hb := peakScan_bound (compute_magnitude_spectrum t).magnitude (List.range 161) (0, 0)
          0 (List.mem_range.2 (by norm_num))
        rw [hm] at hb
        exact le_antisymm hb (computed_mag_nonneg t 0 (by norm_num))
    · intro j hj
      exact peakScan_bound (compute_magnitude_spectrum t).magnitude (List.range 161) (0, 0)
        j (List.mem_range.2 hj)

/-- A full transform state whose computed magnitude is exactly 1 at every
candidate period: `real = period`, `imag = 0`. -/
def c5State : DPTTransform :=
  { dpt_transform_init with
      real := fun i => 40 + (i : ℝ)
      buffer_full := true }

/-- The computed spectrum of `c5State` is constantly 1 on the candidate range. -/
theorem c5_mag (i : ℕ) :
    (compute_magnitude_spectrum c5State).magnitude i = if i < 161 then 1 else 0 := by
  by_cases hi : i < 161
  · rw [if_pos hi]
    simp only [compute_magnitude_spectrum, if_pos hi, c5State, dpt_transform_init]
    rw [mul_zero, add_zero, Real.sqrt_mul_self (by positivity)]
    exact div_self (by positivity)
  · rw [if_neg hi]
    simp only [compute_magnitude_spectrum, if_neg hi, c5State, dpt_transform_init]

/-- The scan over `c5State`'s spectrum stops at `(1, 0)`. -/
theorem c5_scan :
    (List.range 161).foldl (peakScanStep (compute_magnitude_spectrum c5State).magnitude) (0, 0) =
      (1, 0) := by
  rw [List.range_succ_eq_map, List.foldl_cons]
  have h0 : peakScanStep (compute_magnitude_spectrum c5State).magnitude (0, 0) 0 = (1, 0) := by
    rw [peakScanStep, c5_mag 0]
    norm_num
  rw [h0]
  apply peakScan_no_improve
  intro i hi
  rcases List.mem_map.1 hi with ⟨j, hj, rfl⟩
  have hjlt : j + 1 < 161 := by
    have := List.mem_range.1 hj
    omega
  have hsucc : j.succ = j + 1 := rfl
  rw [hsucc, c5_mag (j + 1), if_pos hjlt]
  norm_num

/-- The median of `c5State`'s computed spectrum is 1. -/
theorem c5_median : dptMedianMagnitude (compute_magnitude_spectrum c5State) = 1 := by
  have hmap : (List.range 161).map (compute_magnitude_spectrum c5State).magnitude =
      List.replicate 161 1 := by
    apply List.eq_replicate_iff.2
    constructor
    · simp
    · intro b hb
      rcases List.mem_map.1 hb with ⟨j, hj, rfl⟩
      rw [c5_mag j, if_pos (List.mem_range.1 hj)]
  rw [dptMedianMagnitude, hmap, sortedList_replicate]
  rw [List.getD_eq_getElem _ _ (by rw [List.length_replicate]; norm_num)]
  exact List.getElem_replicate 1 _

/-- C5 (counterexample): on `c5State`'s computed spectrum the maximum equals
the adaptive threshold exactly (both are 1), so the maximum does not exceed
the threshold, yet `find_peak_period` returns period 40, not 0 — the code
accepts equality while the claim demands strict exceedance. -/
theorem find_peak_threshold_counterexample :
    find_peak_period (compute_magnitude_spectrum c5State) = 40 ∧
    ¬(dptAdaptiveThreshold (compute_magnitude_spectrum c5State) <
      dptMaxMagnitude (compute_magnitude_spectrum c5State)) ∧
    dptAdaptiveThreshold (compute_magnitude_spectrum c5State) =
      0.5 + dptMedianMagnitude (compute_magnitude_spectrum c5State) * 0.5 := by
  have hmax : dptMaxMagnitude (compute_magnitude_spectrum c5State) = 1 := by
    rw [dptMaxMagnitude, c5_scan]
  have hidx : dptPeakIndex (compute_magnitude_spectrum c5State) = 0 := by
    rw [dptPeakIndex, c5_scan]
  have hthr : dptAdaptiveThreshold (compute_magnitude_spectrum c5State) = 1 := by
    rw [dptAdaptiveThreshold, c5_median]
    norm_num
  refine ⟨?_, ?_, ?_⟩
  · rw [find_peak_period, if_neg (by rw [hmax, hthr]; norm_num), hidx]
  · rw [hmax, hthr]
    norm_num
  · rw [hthr, c5_median]
    norm_num

/-- Witness for `find_peak_period_spec`: the all-zero spectrum is rejected
(maximum 0 below threshold 0.5), and `c5State`'s spectrum, where the maximum
meets the threshold, yields period 40 attaining the spectrum maximum. -/
theorem find_peak_period_spec_witness :
    find_peak_period (compute_magnitude_spectrum dpt_transform_init) = 0 ∧
    find_peak_period (compute_magnitude_spectrum c5State) =
      40 + dptPeakIndex (compute_magnitude_spectrum c5State) := by
  constructor
  · have hmag0 : ∀ i, (compute_magnitude_spectrum dpt_transform_init).magnitude i = 0 := by
      intro i
      by_cases hi : i < 161
      · simp only [compute_magnitude_spectrum, if_pos hi, dpt_transform_init]
        rw [mul_zero, add_zero, Real.sqrt_zero, zero_div]
      · simp only [compute_magnitude_spectrum, if_neg hi, dpt_transform_init]
    have hscan0 : (List.range 161).foldl
        (peakScanStep (compute_magnitude_spectrum dpt_transform_init).magnitude) (0, 0) =
        (0, 0) := by
      apply peakScan_no_improve
      intro i _
      rw [hmag0 i]
      norm_num
    have hmax0 : dptMaxMagnitude (compute_magnitude_spectrum dpt_transform_init) = 0 := by
      rw [dptMaxMagnitude, hscan0]
    have hmed0 : dptMedianMagnitude (compute_magnitude_spectrum dpt_transform_init) = 0 := by
      have hmap : (List.range 161).map (compute_magnitude_spectrum dpt_transform_init).magnitude =
          List.replicate 161 0 := by
        apply List.eq_replicate_iff.2
        refine ⟨by simp, ?_⟩
        intro b hb
        rcases List.mem_map.1 hb with ⟨j, _, rfl⟩
        exact hmag0 j
      rw [dptMedianMagnitude, hmap, sortedList_replicate, getD_replicate]
    apply (find_peak_period_spec dpt_transform_init).1
    rw [hmax0, dptAdaptiveThreshold, hmed0]
    norm_num
  · have hmax : dptMaxMagnitude (compute_magnitude_spectrum c5State) = 1 := by
      rw [dptMaxMagnitude, c5_scan]
    have hthr : dptAdaptiveThreshold (compute_magnitude_spectrum c5State) = 1 := by
      rw [dptAdaptiveThreshold, c5_median]
      norm_num
    exact ((find_peak_period_spec c5State).2 (by rw [hmax, hthr])).1

/-! ### Method 2 full estimator state (`DPT_State_t`, `ppg_algorithm_v2.c`) -/

/-- `DPT_IIR_State_t` (the `x_n`/`z_n` fields exist in the C struct but are
never used by `iir_filter_process`). -/
structure DPTIIRState where
  w_n : ℝ
  y_n : ℝ
  x_n : ℝ
  z_n : ℝ
  ac_value : ℤ
  dc_value : ℤ

/-- `iir_filter_init`: zeroed state. -/
def iir_filter_init : DPTIIRState := ⟨0, 0, 0, 0, 0, 0⟩

/-- `iir_filter_process`: first-order high-pass for AC (negated, truncated
difference of the recursive state) and first-order low-pass for DC. -/
def iir_filter_process (f : DPTIIRState) (raw_value : ℤ) : DPTIIRState :=
  let input : ℝ := (raw_value : ℝ)
  let w := input + 0.99 * f.w_n
  let y := 0.99 * f.y_n + (1 - 0.99) * input
  { f with
      w_n := w
      ac_value := -(intTrunc (w - f.w_n))
      y_n := y
      dc_value := intTrunc y }

/-- `DPT_State_t`. -/
structure DPTState where
  red_filter : DPTIIRState
  ir_filter : DPTIIRState
  red_dpt : DPTTransform
  ir_dpt : DPTTransform
  cos_basis : ℕ → ℝ
  sin_basis : ℕ → ℝ
  heart_rate : ℝ
  spo2 : ℝ
  peak_period : ℕ
  ema_hr : ℝ
  last_valid_hr : ℝ
  stable_count : ℕ
  r_history : ℕ → ℝ
  r_index : ℕ
  hr_history : ℕ → ℝ
  hr_index : ℕ
  hr_median_buffer : ℕ → ℝ
  hr_median_index : ℕ
  hr_valid : Bool
  spo2_valid : Bool
  last_process_cycles : ℕ

/-- `DPT_Init`: zeroed state with the precomputed rotation basis. -/
def DPT_Init : DPTState :=
  { red_filter := iir_filter_init
    ir_filter := iir_filter_init
    red_dpt := dpt_transform_init
    ir_dpt := dpt_transform_init
    cos_basis := dptInitCos
    sin_basis := dptInitSin
    heart_rate := 0
    spo2 := 0
    peak_period := 0
    ema_hr := 0
    last_valid_hr := 0
    stable_count := 0
    r_history := fun _ => 0
    r_index := 0
    hr_history := fun _ => 0
    hr_index := 0
    hr_median_buffer := fun _ => 0
    hr_median_index := 0
    hr_valid := false
    spo2_valid := false
    last_process_cycles := 0 }

/-- The rate-limited median candidate computed on the HR accept path of
`DPT_Process`: push the raw BPM into the 7-slot median ring, median-filter it,
and clamp the change against the last valid HR to ±8 bpm. -/
def dptFilteredCandidate (s : DPTState) (raw_hr : ℝ) : ℝ :=
  let mb := fun j => if j = s.hr_median_index then raw_hr else s.hr_median_buffer j
  let m := m2_median_filter ((List.range 7).map mb)
  if s.last_valid_hr > 0 then
    (if m - s.last_valid_hr > 8 then s.last_valid_hr + 8
      else if m - s.last_valid_hr < -8 then s.last_valid_hr - 8
      else m)
  else m

/-- The HR accept path of `DPT_Process` (steps 1-8 of its HR section): median
filtering, rate limiting, EMA blending, secondary smoothing, and the
stability-gated validity flag. -/
def dptHrAccept (s : DPTState) (raw_hr : ℝ) : DPTState :=
  let mb := fun j => if j = s.hr_median_index then raw_hr else s.hr_median_buffer j
  let mi := (s.hr_median_index + 1) % 7
  let median2 := dptFilteredCandidate s raw_hr
  let ema := if s.ema_hr = 0 then median2 else 0.15 * median2 + (1 - 0.15) * s.ema_hr
  let hh := fun j => if j = s.hr_index then ema else s.hr_history j
  let hi := (s.hr_index + 1) % 7
  let smoothed := smooth_array ((List.range 7).map hh)
  let change := if s.last_valid_hr > 0 then |smoothed - s.last_valid_hr| else 0
  let stable := if change < 3 then (s.stable_count + 1) % 256 else 0
  { s with
      hr_median_buffer := mb
      hr_median_index := mi
      ema_hr := ema
      hr_history := hh
      hr_index := hi
      stable_count := stable
      heart_rate := smoothed
      last_valid_hr := smoothed
      hr_valid := decide (2 ≤ stable) }

/-- The HR reject path of `DPT_Process`: invalidate, zero the stability
counter, and zero the EMA so the next valid reading re-seeds. -/
def dptHrReject (s : DPTState) : DPTState :=
  { s with hr_valid := false, stable_count := 0, ema_hr := 0 }

/-- The SpO2 section of `DPT_Process` (step 7): gated R-value computation with
ring smoothing; every gating failure invalidates and clears the R history. -/
def dptSpo2Update (s : DPTState) : DPTState :=
  if 0 < s.peak_period ∧ 10000 < s.red_filter.dc_value ∧ 10000 < s.ir_filter.dc_value then
    if (s.peak_period + 65536 - 40) % 65536 < 161 then
      let peak_idx := (s.peak_period + 65536 - 40) % 65536
      let red_ratio := s.red_dpt.magnitude peak_idx / (s.red_filter.dc_value : ℝ)
      let ir_ratio := s.ir_dpt.magnitude peak_idx / (s.ir_filter.dc_value : ℝ)
      if 0 < ir_ratio then
        let rh := fun j => if j = s.r_index then red_ratio / ir_ratio else s.r_history j
        let ri := (s.r_index + 1) % 10
        let r_smooth := smooth_array ((List.range 10).map rh)
        let spo2v := -45.06 * r_smooth * r_smooth + 30.354 * r_smooth + 94.845
        { s with
            r_history := rh
            r_index := ri
            spo2 := spo2v
            spo2_valid := decide (70 ≤ spo2v) && decide (spo2v ≤ 100) }
      else
        { s with spo2_valid := false, r_history := fun _ => 0, r_index := 0 }
    else
      { s with spo2_valid := false, r_history := fun _ => 0, r_index := 0 }
  else
    { s with spo2_valid := false, r_history := fun _ => 0, r_index := 0 }

/-- The intermediate state of `DPT_Process` after the filters, transforms,
magnitude spectra and peak search (steps 1-5), before the HR/SpO2 sections. -/
def dptStepMid (s : DPTState) (raw_red raw_ir : ℤ) : DPTState :=
  let rf := iir_filter_process s.red_filter raw_red
  let irf := iir_filter_process s.ir_filter raw_ir
  let rd := dpt_transform_process s.red_dpt rf.ac_value s.cos_basis s.sin_basis
  let idp := dpt_transform_process s.ir_dpt irf.ac_value s.cos_basis s.sin_basis
  let rd2 := compute_magnitude_spectrum rd
  let id2 := compute_magnitude_spectrum idp
  { s with
      red_filter := rf
      ir_filter := irf
      red_dpt := rd2
      ir_dpt := id2
      peak_period := find_peak_period id2 }

/-- `DPT_Process`: one sample through both channels. `cycles` is the DWT
cycle-counter delta measured by the surrounding instrumentation; it is stored
on the full path exactly as in the source (the early return leaves the old
value in place). -/
def DPT_Process (cycles : ℕ) (s : DPTState) (raw_red raw_ir : ℤ) : DPTState :=
  let rf := iir_filter_process s.red_filter raw_red
  let irf := iir_filter_process s.ir_filter raw_ir
  let rd := dpt_transform_process s.red_dpt rf.ac_value s.cos_basis s.sin_basis
  let idp := dpt_transform_process s.ir_dpt irf.ac_value s.cos_basis s.sin_basis
  if rd.buffer_full = true ∧ idp.buffer_full = true then
    let mid := dptStepMid s raw_red raw_ir
    let s3 :=
      if 0 < mid.peak_period then
        if 30 ≤ 6000 / (mid.peak_period : ℝ) ∧ 6000 / (mid.peak_period : ℝ) ≤ 150 then
          dptHrAccept mid (6000 / (mid.peak_period : ℝ))
        else dptHrReject mid
      else dptHrReject mid
    { dptSpo2Update s3 with last_process_cycles := cycles }
  else
    { s with
        red_filter := rf
        ir_filter := irf
        red_dpt := rd
        ir_dpt := idp
        hr_valid := false
        spo2_valid := false }

/-- The SpO2 section touches only the R/SpO2 fields: every HR-related field,
the transforms and the filters pass through unchanged. -/
theorem dptSpo2Update_frame (t : DPTState) :
    (dptSpo2Update t).hr_valid = t.hr_valid ∧
    (dptSpo2Update t).stable_count = t.stable_count ∧
    (dptSpo2Update t).ema_hr = t.ema_hr ∧
    (dptSpo2Update t).peak_period = t.peak_period ∧
    (dptSpo2Update t).heart_rate = t.heart_rate ∧
    (dptSpo2Update t).last_valid_hr = t.last_valid_hr ∧
    (dptSpo2Update t).hr_median_buffer = t.hr_median_buffer ∧
    (dptSpo2Update t).hr_median_index = t.hr_median_index ∧
    (dptSpo2Update t).hr_history = t.hr_history ∧
    (dptSpo2Update t).hr_index = t.hr_index ∧
    (dptSpo2Update t).red_dpt = t.red_dpt ∧
    (dptSpo2Update t).ir_dpt = t.ir_dpt ∧
    (dptSpo2Update t).red_filter = t.red_filter ∧
    (dptSpo2Update t).ir_filter = t.ir_filter := by
  simp only [dptSpo2Update]
  split_ifs <;>
    exact ⟨rfl, rfl, rfl, rfl, rfl, rfl, rfl, rfl, rfl, rfl, rfl, rfl, rfl, rfl⟩

/-- C6: whenever `DPT_Process` runs with full history buffers and either finds
no spectral peak or derives a raw BPM outside [30,150], it invalidates the
heart rate, resets the stability counter, and zeroes the EMA; and on the accept
path taken with a zero EMA, the EMA is seeded directly with the rate-limited
median candidate (no blending with prior state). -/
theorem dpt_reject_resets (cycles : ℕ) (s : DPTState) (raw_red raw_ir : ℤ) :
    ((DPT_Process cycles s raw_red raw_ir).red_dpt.buffer_full = true →
      (DPT_Process cycles s raw_red raw_ir).ir_dpt.buffer_full = true →
      ((DPT_Process cycles s raw_red raw_ir).peak_period = 0 ∨
        6000 / ((DPT_Process cycles s raw_red raw_ir).peak_period : ℝ) < 30 ∨
        150 < 6000 / ((DPT_Process cycles s raw_red raw_ir).peak_period : ℝ)) →
      (DPT_Process cycles s raw_red raw_ir).hr_valid = false ∧
      (DPT_Process cycles s raw_red raw_ir).stable_count = 0 ∧
      (DPT_Process cycles s raw_red raw_ir).ema_hr = 0) ∧
    ((DPT_Process cycles s raw_red raw_ir).red_dpt.buffer_full = true →
      (DPT_Process cycles s raw_red raw_ir).ir_dpt.buffer_full = true →
      0 < (DPT_Process cycles s raw_red raw_ir).peak_period →
      30 ≤ 6000 / ((DPT_Process cycles s raw_red raw_ir).peak_period : ℝ) →
      6000 / ((DPT_Process cycles s raw_red raw_ir).peak_period : ℝ) ≤ 150 →
      s.ema_hr = 0 →
      (DPT_Process cycles s raw_red raw_ir).ema_hr =
        dptFilteredCandidate (dptStepMid s raw_red raw_ir)
          (6000 / ((DPT_Process cycles s raw_red raw_ir).peak_period : ℝ))) := by
  simp only [DPT_Process]
  split_ifs with h1 h2 h3
  · -- accept path
    have hpk : ({ dptSpo2Update (dptHrAccept (dptStepMid s raw_red raw_ir)
        (6000 / ((dptStepMid s raw_red raw_ir).peak_period : ℝ)))
          with last_process_cycles := cycles }).peak_period =
        (dptStepMid s raw_red raw_ir).peak_period := by
      show (dptSpo2Update _).peak_period = _
      rw [(dptSpo2Update_frame _).2.2.2.1]
      rfl
    constructor
    · intro _ _ hdisj
      rw [hpk] at hdisj
      rcases hdisj with h | h | h
      · omega
      · linarith [h3.1]
      · linarith [h3.2]
    · intro _ _ _ _ _ hema
      rw [hpk]
      show (dptSpo2Update _).ema_hr = _
      rw [(dptSpo2Update_frame _).2.2.1]
      show (if (dptStepMid s raw_red raw_ir).ema_hr = 0 then _ else _) = _
      rw [if_pos (show (dptStepMid s raw_red raw_ir).ema_hr = 0 from hema)]
  · -- raw BPM out of range
    constructor
    · intro _ _ _
      refine ⟨?_, ?_, ?_⟩
      · show (dptSpo2Update _).hr_valid = false
        rw [(dptSpo2Update_frame _).1]
        rfl
      · show (dptSpo2Update _).stable_count = 0
        rw [(dptSpo2Update_frame _).2.1]
        rfl
      · show (dptSpo2Update _).ema_hr = 0
        rw [(dptSpo2Update_frame _).2.2.1]
        rfl
    · intro _ _ _ hlo hhi _
      exfalso
      have hpk : ({ dptSpo2Update (dptHrReject (dptStepMid s raw_red raw_ir))
          with last_process_cycles := cycles }).peak_period =
          (dptStepMid s raw_red raw_ir).peak_period := by
        show (dptSpo2Update _).peak_period = _
        rw [(dptSpo2Update_frame _).2.2.2.1]
        rfl
      rw [hpk] at hlo hhi
      exact h3 ⟨hlo, hhi⟩
  · -- no peak
    constructor
    · intro _ _ _
      refine ⟨?_, ?_, ?_⟩
      · show (dptSpo2Update _).hr_valid = false
        rw [(dptSpo2Update_frame _).1]
        rfl
      · show (dptSpo2Update _).stable_count = 0
        rw [(dptSpo2Update_frame _).2.1]
        rfl
      · show (dptSpo2Update _).ema_hr = 0
        rw [(dptSpo2Update_frame _).2.2.1]
        rfl
    · intro _ _ hp _ _ _
      exfalso
      have hpk : ({ dptSpo2Update (dptHrReject (dptStepMid s raw_red raw_ir))
          with last_process_cycles := cycles }).peak_period =
          (dptStepMid s raw_red raw_ir).peak_period := by
        show (dptSpo2Update _).peak_period = _
        rw [(dptSpo2Update_frame _).2.2.2.1]
        rfl
      rw [hpk] at hp
      exact h2 hp
  · -- early return: the hypotheses are contradictory
    constructor
    · intro hf1 hf2 _
      exact absurd ⟨hf1, hf2⟩ h1
    · intro hf1 hf2 _ _ _ _
      exact absurd ⟨hf1, hf2⟩ h1

/-- A transform whose accumulators vanish on the candidate range yields no
spectral peak. -/
theorem find_peak_zero_accum (t : DPTTransform)
    (hre : ∀ p, p < 161 → t.real p = 0) (him : ∀ p, p < 161 → t.imag p = 0) :
    find_peak_period (compute_magnitude_spectrum t) = 0 := by
  have hmag : ∀ i, i < 161 → (compute_magnitude_spectrum t).magnitude i = 0 := by
    intro i hi
    simp only [compute_magnitude_spectrum, if_pos hi]
    rw [hre i hi, him i hi]
    norm_num
  have hscan : (List.range 161).foldl
      (peakScanStep (compute_magnitude_spectrum t).magnitude) (0, 0) = (0, 0) := by
    apply peakScan_no_improve
    intro i hi
    rw [hmag i (List.mem_range.1 hi)]
    norm_num
  have hmed : dptMedianMagnitude (compute_magnitude_spectrum t) = 0 := by
    have hmap : (List.range 161).map (compute_magnitude_spectrum t).magnitude =
        List.replicate 161 0 := by
      apply List.eq_replicate_iff.2
      refine ⟨by simp, ?_⟩
      intro b hb
      rcases List.mem_map.1 hb with ⟨j, hj, rfl⟩
      exact hmag j (List.mem_range.1 hj)
    rw [dptMedianMagnitude, hmap, sortedList_replicate, getD_replicate]
  rw [find_peak_period, dptMaxMagnitude, hscan, if_pos]
  rw [dptAdaptiveThreshold, hmed]
  norm_num

/-- The zero input leaves the zero IIR filter at zero. -/
theorem iir_zero_ac : (iir_filter_process iir_filter_init 0).ac_value = 0 ∧
    (iir_filter_process iir_filter_init 0).dc_value = 0 := by
  constructor <;>
    norm_num [iir_filter_process, iir_filter_init, intTrunc]

/-- A full transform holding only zeros. -/
def c6FullZeroTransform : DPTTransform :=
  { dpt_transform_init with buffer_full := true, sample_count := 1000 }

/-- Processing a zero sample through the full zero transform keeps every
in-range accumulator at zero and the buffer full. -/
theorem c6_zero_transform_step (cb sb : ℕ → ℝ) :
    (∀ p, p < 161 → (dpt_transform_process c6FullZeroTransform 0 cb sb).real p = 0) ∧
    (∀ p, p < 161 → (dpt_transform_process c6FullZeroTransform 0 cb sb).imag p = 0) ∧
    (dpt_transform_process c6FullZeroTransform 0 cb sb).buffer_full = true := by
  have hcond : (if 1000 ≤ (c6FullZeroTransform.sample_count + 1) % 65536 then true
      else c6FullZeroTransform.buffer_full) = true := by
    norm_num [c6FullZeroTransform]
  refine ⟨?_, ?_, ?_⟩
  · intro p hp
    rw [dpt_process_full_real _ _ _ _ hcond p hp]
    simp [c6FullZeroTransform, dpt_transform_init]
  · intro p hp
    rw [dpt_process_full_imag _ _ _ _ hcond p hp]
    simp [c6FullZeroTransform, dpt_transform_init]
  · rw [(dpt_process_bookkeeping _ _ _ _).2.2.2.1, hcond]

/-- State for the C6 rejection witness: both history buffers full of zeros. -/
def c6RejectState : DPTState :=
  { DPT_Init with red_dpt := c6FullZeroTransform, ir_dpt := c6FullZeroTransform }

/-- The red-channel transform computed by `DPT_Process` on `c6RejectState`
with zero inputs stays at zero and remains full. -/
theorem c6_reject_red_ac :
    (iir_filter_process c6RejectState.red_filter 0).ac_value = 0 := by
  show (iir_filter_process iir_filter_init 0).ac_value = 0
  exact iir_zero_ac.1

/-- The red-channel transform stays full on the rejection witness state. -/
theorem c6_reject_red_full :
    (dpt_transform_process c6RejectState.red_dpt
      (iir_filter_process c6RejectState.red_filter 0).ac_value
      c6RejectState.cos_basis c6RejectState.sin_basis).buffer_full = true := by
  rw [c6_reject_red_ac]
  exact (c6_zero_transform_step c6RejectState.cos_basis c6RejectState.sin_basis).2.2

/-- The IR-channel transform stays full on the rejection witness state. -/
theorem c6_reject_ir_full :
    (dpt_transform_process c6RejectState.ir_dpt
      (iir_filter_process c6RejectState.ir_filter 0).ac_value
      c6RejectState.cos_basis c6RejectState.sin_basis).buffer_full = true := by
  rw [show (iir_filter_process c6RejectState.ir_filter 0).ac_value = 0 from iir_zero_ac.1]
  exact (c6_zero_transform_step c6RejectState.cos_basis c6RejectState.sin_basis).2.2

/-- The rejection witness state finds no spectral peak. -/
theorem c6_reject_peak :
    (dptStepMid c6RejectState 0 0).peak_period = 0 := by
  show find_peak_period (compute_magnitude_spectrum
    (dpt_transform_process c6RejectState.ir_dpt
      (iir_filter_process c6RejectState.ir_filter 0).ac_value
      c6RejectState.cos_basis c6RejectState.sin_basis)) = 0
  rw [show (iir_filter_process c6RejectState.ir_filter 0).ac_value = 0 from iir_zero_ac.1]
  exact find_peak_zero_accum _
    (c6_zero_transform_step c6RejectState.cos_basis c6RejectState.sin_basis).1
    (c6_zero_transform_step c6RejectState.cos_basis c6RejectState.sin_basis).2.1

/-- On `c6RejectState`, `DPT_Process` takes the full path with the no-peak
rejection. -/
theorem c6_reject_step :
    DPT_Process 0 c6RejectState 0 0 =
      { dptSpo2Update (dptHrReject (dptStepMid c6RejectState 0 0)) with
          last_process_cycles := 0 } := by
  simp only [DPT_Process]
  rw [if_pos ⟨c6_reject_red_full, c6_reject_ir_full⟩]
  rw [if_neg (by rw [c6_reject_peak]; omega)]

/-- A full transform holding a single spectral spike at period 40. -/
def c6SpikeTransform : DPTTransform :=
  { dpt_transform_init with
      real := fun p => if p = 0 then 10000 else 0
      buffer_full := true
      sample_count := 1000 }

/-- State for the C6 seeding witness: identity rotation basis, zero red
channel, spiked IR channel, zero EMA. -/
def c6AcceptState : DPTState :=
  { DPT_Init with
      cos_basis := fun _ => 1
      sin_basis := fun _ => 0
      red_dpt := c6FullZeroTransform
      ir_dpt := c6SpikeTransform }

/-- Processing a zero sample through the spike transform with the identity
basis reproduces the spike. -/
theorem c6_spike_step :
    (∀ p, p < 161 → (dpt_transform_process c6SpikeTransform 0 (fun _ => 1) (fun _ => 0)).real p =
      if p = 0 then 10000 else 0) ∧
    (∀ p, p < 161 → (dpt_transform_process c6SpikeTransform 0 (fun _ => 1) (fun _ => 0)).imag p = 0) ∧
    (dpt_transform_process c6SpikeTransform 0 (fun _ => 1) (fun _ => 0)).buffer_full = true := by
  have hcond : (if 1000 ≤ (c6SpikeTransform.sample_count + 1) % 65536 then true
      else c6SpikeTransform.buffer_full) = true := by
    norm_num [c6SpikeTransform]
  refine ⟨?_, ?_, ?_⟩
  · intro p hp
    rw [dpt_process_full_real _ _ _ _ hcond p hp]
    simp [c6SpikeTransform, dpt_transform_init]
  · intro p hp
    rw [dpt_process_full_imag _ _ _ _ hcond p hp]
    simp [c6SpikeTransform, dpt_transform_init]
  · rw [(dpt_process_bookkeeping _ _ _ _).2.2.2.1, hcond]

/-- The computed magnitude spectrum of the processed spike transform: 250 at
period index 0 and 0 elsewhere. -/
theorem c6_spike_mag (i : ℕ) :
    (compute_magnitude_spectrum
      (dpt_transform_process c6SpikeTransform 0 (fun _ => 1) (fun _ => 0))).magnitude i =
      if i = 0 then 250 else 0 := by
  by_cases hi : i < 161
  · simp only [compute_magnitude_spectrum, if_pos hi]
    rw [c6_spike_step.1 i hi, c6_spike_step.2.1 i hi]
    by_cases h0 : i = 0
    · subst h0
      rw [if_pos rfl, if_pos rfl]
      rw [mul_zero, add_zero, Real.sqrt_mul_self (by norm_num : (0:ℝ) ≤ 10000)]
      norm_num
    · rw [if_neg h0, if_neg h0]
      norm_num
  · simp only [compute_magnitude_spectrum, if_neg hi]
    rw [if_neg (by omega : ¬i = 0)]
    show c6SpikeTransform.magnitude i = 0
    rfl

/-- The peak search on the processed spike spectrum returns period 40. -/
theorem c6_spike_peak :
    find_peak_period (compute_magnitude_spectrum
      (dpt_transform_process c6SpikeTransform 0 (fun _ => 1) (fun _ => 0))) = 40 := by
  have hscan : (List.range 161).foldl
      (peakScanStep (compute_magnitude_spectrum
        (dpt_transform_process c6SpikeTransform 0 (fun _ => 1) (fun _ => 0))).magnitude)
      (0, 0) = (250, 0) := by
    rw [List.range_succ_eq_map, List.foldl_cons]
    have h0 : peakScanStep (compute_magnitude_spectrum
        (dpt_transform_process c6SpikeTransform 0 (fun _ => 1) (fun _ => 0))).magnitude
        (0, 0) 0 = (250, 0) := by
      rw [peakScanStep, c6_spike_mag 0]
      norm_num
    rw [h0]
    apply peakScan_no_improve
    intro i hi
    rcases List.mem_map.1 hi with ⟨j, _, rfl⟩
    rw [c6_spike_mag (j.succ), if_neg (Nat.succ_ne_zero j)]
    norm_num
  have hmap : (List.range 161).map (compute_magnitude_spectrum
      (dpt_transform_process c6SpikeTransform 0 (fun _ => 1) (fun _ => 0))).magnitude =
      250 :: List.replicate 160 0 := by
    rw [List.range_succ_eq_map, List.map_cons, List.map_map, c6_spike_mag 0, if_pos rfl]
    congr 1
    apply List.eq_replicate_iff.2
    refine ⟨by simp, ?_⟩
    intro b hb
    rcases List.mem_map.1 hb with ⟨j, _, rfl⟩
    show (compute_magnitude_spectrum _).magnitude (j.succ) = 0
    rw [c6_spike_mag (j.succ), if_neg (Nat.succ_ne_zero j)]
  have hsorted : sortedList ((250 : ℝ) :: List.replicate 160 0) =
      List.replicate 160 0 ++ [250] := by
    apply List.eq_of_perm_of_sorted
      ((List.perm_insertionSort _ _).trans (List.perm_append_singleton _ _).symm)
      (List.sorted_insertionSort _ _)
    rw [List.Sorted, List.pairwise_append]
    refine ⟨sorted_replicate 160 0, by simp, ?_⟩
    intro x hx y hy
    rw [List.eq_of_mem_replicate hx, List.mem_singleton.1 hy]
    norm_num
  have hmed : dptMedianMagnitude (compute_magnitude_spectrum
      (dpt_transform_process c6SpikeTransform 0 (fun _ => 1) (fun _ => 0))) = 0 := by
    rw [dptMedianMagnitude, hmap, hsorted,
      List.getD_append _ _ _ _ (by rw [List.length_replicate]; norm_num)]
    have := getD_replicate (0 : ℝ) 160 80
    exact this
  rw [find_peak_period, dptMaxMagnitude, dptPeakIndex, hscan,
    if_neg (by rw [dptAdaptiveThreshold, hmed]; norm_num)]
  rfl

/-- The seeding witness state finds peak period 40. -/
theorem c6_accept_peak : (dptStepMid c6AcceptState 0 0).peak_period = 40 := by
  show find_peak_period (compute_magnitude_spectrum
    (dpt_transform_process c6AcceptState.ir_dpt
      (iir_filter_process c6AcceptState.ir_filter 0).ac_value
      c6AcceptState.cos_basis c6AcceptState.sin_basis)) = 40
  rw [show (iir_filter_process c6AcceptState.ir_filter 0).ac_value = 0 from iir_zero_ac.1]
  exact c6_spike_peak

/-- Both channels of the seeding witness state stay full through one step. -/
theorem c6_accept_full :
    (dpt_transform_process c6AcceptState.red_dpt
      (iir_filter_process c6AcceptState.red_filter 0).ac_value
      c6AcceptState.cos_basis c6AcceptState.sin_basis).buffer_full = true ∧
    (dpt_transform_process c6AcceptState.ir_dpt
      (iir_filter_process c6AcceptState.ir_filter 0).ac_value
      c6AcceptState.cos_basis c6AcceptState.sin_basis).buffer_full = true := by
  constructor
  · rw [show (iir_filter_process c6AcceptState.red_filter 0).ac_value = 0 from iir_zero_ac.1]
    exact (c6_zero_transform_step c6AcceptState.cos_basis c6AcceptState.sin_basis).2.2
  · rw [show (iir_filter_process c6AcceptState.ir_filter 0).ac_value = 0 from iir_zero_ac.1]
    exact c6_spike_step.2.2

/-- On `c6AcceptState`, `DPT_Process` takes the full accept path at 150 bpm. -/
theorem c6_accept_step :
    DPT_Process 0 c6AcceptState 0 0 =
      { dptSpo2Update (dptHrAccept (dptStepMid c6AcceptState 0 0)
          (6000 / ((dptStepMid c6AcceptState 0 0).peak_period : ℝ))) with
          last_process_cycles := 0 } := by
  simp only [DPT_Process]
  rw [if_pos ⟨c6_accept_full.1, c6_accept_full.2⟩]
  rw [if_pos (by rw [c6_accept_peak]; omega)]
  rw [if_pos (by rw [c6_accept_peak]; norm_num)]

/-- Witness for `dpt_reject_resets`: the all-zero full state rejects with the
full reset, and the spiked state with zero EMA seeds the EMA from the filtered
candidate. -/
theorem dpt_reject_resets_witness :
    ((DPT_Process 0 c6RejectState 0 0).hr_valid = false ∧
      (DPT_Process 0 c6RejectState 0 0).stable_count = 0 ∧
      (DPT_Process 0 c6RejectState 0 0).ema_hr = 0) ∧
    (DPT_Process 0 c6AcceptState 0 0).ema_hr =
      dptFilteredCandidate (dptStepMid c6AcceptState 0 0)
        (6000 / ((DPT_Process 0 c6AcceptState 0 0).peak_period : ℝ)) := by
  constructor
  · apply (dpt_reject_resets 0 c6RejectState 0 0).1
    · rw [c6_reject_step]
      show (dptSpo2Update _).red_dpt.buffer_full = true
      rw [(dptSpo2Update_frame _).2.2.2.2.2.2.2.2.2.2.1]
      show (dptStepMid c6RejectState 0 0).red_dpt.buffer_full = true
      show (compute_magnitude_spectrum (dpt_transform_process c6RejectState.red_dpt
        (iir_filter_process c6RejectState.red_filter 0).ac_value
        c6RejectState.cos_basis c6RejectState.sin_basis)).buffer_full = true
      exact c6_reject_red_full
    · rw [c6_reject_step]
      show (dptSpo2Update _).ir_dpt.buffer_full = true
      rw [(dptSpo2Update_frame _).2.2.2.2.2.2.2.2.2.2.2.1]
      show (compute_magnitude_spectrum (dpt_transform_process c6RejectState.ir_dpt
        (iir_filter_process c6RejectState.ir_filter 0).ac_value
        c6RejectState.cos_basis c6RejectState.sin_basis)).buffer_full = true
      exact c6_reject_ir_full
    · left
      rw [c6_reject_step]
      show (dptSpo2Update _).peak_period = 0
      rw [(dptSpo2Update_frame _).2.2.2.1]
      show (dptStepMid c6RejectState 0 0).peak_period = 0
      exact c6_reject_peak
  · have hpk : (DPT_Process 0 c6AcceptState 0 0).peak_period =
        (dptStepMid c6AcceptState 0 0).peak_period := by
      rw [c6_accept_step]
      show (dptSpo2Update _).peak_period = _
      rw [(dptSpo2Update_frame _).2.2.2.1]
      rfl
    apply (dpt_reject_resets 0 c6AcceptState 0 0).2
    · rw [c6_accept_step]
      show (dptSpo2Update _).red_dpt.buffer_full = true
      rw [(dptSpo2Update_frame _).2.2.2.2.2.2.2.2.2.2.1]
      show (compute_magnitude_spectrum (dpt_transform_process c6AcceptState.red_dpt
        (iir_filter_process c6AcceptState.red_filter 0).ac_value
        c6AcceptState.cos_basis c6AcceptState.sin_basis)).buffer_full = true
      exact c6_accept_full.1
    · rw [c6_accept_step]
      show (dptSpo2Update _).ir_dpt.buffer_full = true
      rw [(dptSpo2Update_frame _).2.2.2.2.2.2.2.2.2.2.2.1]
      show (compute_magnitude_spectrum (dpt_transform_process c6AcceptState.ir_dpt
        (iir_filter_process c6AcceptState.ir_filter 0).ac_value
        c6AcceptState.cos_basis c6AcceptState.sin_basis)).buffer_full = true
      exact c6_accept_full.2
    · rw [hpk, c6_accept_peak]
      omega
    · rw [hpk, c6_accept_peak]
      norm_num
    · rw [hpk, c6_accept_peak]
      norm_num
    · rfl

/-- Elements read from the sorted copy are elements of the original list. -/
theorem sortedList_getD_mem (v : List ℝ) (k : ℕ) (hk : k < v.length) :
    (sortedList v).getD k 0 ∈ v := by
  have hlen : (sortedList v).length = v.length :=
    (List.perm_insertionSort _ _).length_eq
  rw [List.getD_eq_getElem _ _ (by rw [hlen]; exact hk)]
  exact (List.perm_insertionSort _ _).mem_iff.1 (List.getElem_mem _)

/-- The Method 2 median filter of a list whose positive entries all lie in
`[lo, hi]` (with at least one positive entry) lies in `[lo, hi]`. -/
theorem m2_median_filter_range (l : List ℝ) (lo hi : ℝ)
    (hall : ∀ x ∈ l, 0 < x → lo ≤ x ∧ x ≤ hi) (hex : ∃ x ∈ l, 0 < x) :
    lo ≤ m2_median_filter l ∧ m2_median_filter l ≤ hi := by
  obtain ⟨x0, hx0l, hx0⟩ := hex
  have hlne : ¬l.length = 0 := by
    intro h
    rw [List.length_eq_zero] at h
    subst h
    simp at hx0l
  have hx0v : x0 ∈ l.filter (fun x => decide (0 < x)) :=
    List.mem_filter.2 ⟨hx0l, by simpa using hx0⟩
  have hvne : ¬(l.filter (fun x => decide (0 < x))).length = 0 := by
    intro h
    rw [List.length_eq_zero] at h
    rw [h] at hx0v
    simp at hx0v
  have hvmem : ∀ y ∈ l.filter (fun x => decide (0 < x)), lo ≤ y ∧ y ≤ hi := by
    intro y hy
    have hy2 := List.mem_filter.1 hy
    exact hall y hy2.1 (by simpa using hy2.2)
  simp only [m2_median_filter, if_neg hlne, if_neg hvne]
  by_cases h1 : (l.filter (fun x => decide (0 < x))).length = 1
  · rw [if_pos h1]
    refine hvmem _ ?_
    rw [List.getD_eq_getElem _ _ (by omega)]
    exact List.getElem_mem _
  · rw [if_neg h1]
    have hlen2 : 2 ≤ (l.filter (fun x => decide (0 < x))).length := by omega
    split
    · have hm1 := hvmem _ (sortedList_getD_mem (l.filter (fun x => decide (0 < x)))
        ((l.filter (fun x => decide (0 < x))).length / 2 - 1) (by omega))
      have hm2 := hvmem _ (sortedList_getD_mem (l.filter (fun x => decide (0 < x)))
        ((l.filter (fun x => decide (0 < x))).length / 2) (by omega))
      constructor <;> [linarith [hm1.1, hm2.1]; linarith [hm1.2, hm2.2]]
    · exact hvmem _ (sortedList_getD_mem (l.filter (fun x => decide (0 < x)))
        ((l.filter (fun x => decide (0 < x))).length / 2) (by omega))

/-- `smooth_array` is never negative. -/
theorem smooth_array_nonneg (l : List ℝ) : 0 ≤ smooth_array l := by
  simp only [smooth_array]
  split
  · exact le_refl 0
  · apply div_nonneg
    · apply List.sum_nonneg
      intro x hx
      have := List.mem_filter.1 hx
      exact le_of_lt (by simpa using this.2)
    · positivity

/-- `smooth_array` of a list containing a positive entry is positive. -/
theorem smooth_array_pos (l : List ℝ) (hex : ∃ x ∈ l, 0 < x) : 0 < smooth_array l := by
  obtain ⟨x0, hx0l, hx0⟩ := hex
  have hx0v : x0 ∈ l.filter (fun x => decide (0 < x)) :=
    List.mem_filter.2 ⟨hx0l, by simpa using hx0⟩
  have hvne : ¬(l.filter (fun x => decide (0 < x))).length = 0 := by
    intro h
    rw [List.length_eq_zero] at h
    rw [h] at hx0v
    simp at hx0v
  simp only [smooth_array, if_neg hvne]
  apply div_pos
  · apply List.sum_pos
    · intro x hx
      have := List.mem_filter.1 hx
      simpa using this.2
    · intro h
      rw [h] at hx0v
      simp at hx0v
  · have : 0 < (l.filter (fun x => decide (0 < x))).length := by omega
    exact_mod_cast this

/-- The rate-limited median candidate is positive whenever the median ring
holds only zeros and plausible BPM values, the last valid HR is nonnegative,
and the incoming raw BPM is plausible. -/
theorem dptFilteredCandidate_pos (s : DPTState) (raw : ℝ)
    (hmb : ∀ j, j < 7 → s.hr_median_buffer j = 0 ∨
      (30 ≤ s.hr_median_buffer j ∧ s.hr_median_buffer j ≤ 150))
    (hmi : s.hr_median_index < 7) (hlv : 0 ≤ s.last_valid_hr)
    (h30 : 30 ≤ raw) (h150 : raw ≤ 150) :
    0 < dptFilteredCandidate s raw := by
  have hmed := m2_median_filter_range
    ((List.range 7).map (fun j => if j = s.hr_median_index then raw else s.hr_median_buffer j))
    30 150 ?_ ?_
  · simp only [dptFilteredCandidate]
    split_ifs <;> linarith [hmed.1, hmed.2]
  · intro x hx hxpos
    rcases List.mem_map.1 hx with ⟨j, hj, rfl⟩
    by_cases hje : j = s.hr_median_index
    · rw [if_pos hje] at hxpos ⊢
      exact ⟨h30, h150⟩
    · rw [if_neg hje] at hxpos ⊢
      rcases hmb j (List.mem_range.1 hj) with h0 | hr
      · rw [h0] at hxpos
        linarith
      · exact hr
  · refine ⟨raw, ?_, by linarith⟩
    apply List.mem_map.2
    exact ⟨s.hr_median_index, List.mem_range.2 hmi, if_pos rfl⟩

/-- On the accept path the EMA and the published (smoothed) heart rate are
positive, and the published value is recorded as the last valid HR. -/
theorem dptHrAccept_pos (s : DPTState) (raw : ℝ)
    (hmb : ∀ j, j < 7 → s.hr_median_buffer j = 0 ∨
      (30 ≤ s.hr_median_buffer j ∧ s.hr_median_buffer j ≤ 150))
    (hmi : s.hr_median_index < 7) (hhi : s.hr_index < 7)
    (hlv : 0 ≤ s.last_valid_hr) (hema : 0 ≤ s.ema_hr)
    (h30 : 30 ≤ raw) (h150 : raw ≤ 150) :
    0 < (dptHrAccept s raw).ema_hr ∧ 0 < (dptHrAccept s raw).heart_rate ∧
      (dptHrAccept s raw).last_valid_hr = (dptHrAccept s raw).heart_rate := by
  have hc := dptFilteredCandidate_pos s raw hmb hmi hlv h30 h150
  have hemapos : 0 < (dptHrAccept s raw).ema_hr := by
    show 0 < (if s.ema_hr = 0 then dptFilteredCandidate s raw
      else 0.15 * dptFilteredCandidate s raw + (1 - 0.15) * s.ema_hr)
    split_ifs
    · exact hc
    · nlinarith
  refine ⟨hemapos, ?_, rfl⟩
  show 0 < smooth_array ((List.range 7).map
    (fun j => if j = s.hr_index then
      (if s.ema_hr = 0 then dptFilteredCandidate s raw
        else 0.15 * dptFilteredCandidate s raw + (1 - 0.15) * s.ema_hr)
      else s.hr_history j))
  apply smooth_array_pos
  refine ⟨_, List.mem_map.2 ⟨s.hr_index, List.mem_range.2 hhi, rfl⟩, ?_⟩
  rw [if_pos rfl]
  exact hemapos

/-- A reading marked valid on the accept path implies the stability gate saw a
change below 3 bpm relative to the previous valid HR (when one exists). -/
theorem dptHrAccept_valid_change (s : DPTState) (raw : ℝ)
    (hv : (dptHrAccept s raw).hr_valid = true) (hlv : 0 < s.last_valid_hr) :
    |(dptHrAccept s raw).heart_rate - s.last_valid_hr| < 3 := by
  have hvdef : (dptHrAccept s raw).hr_valid =
      decide (2 ≤ (dptHrAccept s raw).stable_count) := rfl
  rw [hvdef] at hv
  have hst : 2 ≤ (dptHrAccept s raw).stable_count := of_decide_eq_true hv
  have hstdef : (dptHrAccept s raw).stable_count =
      if (if s.last_valid_hr > 0 then |(dptHrAccept s raw).heart_rate - s.last_valid_hr|
          else 0) < 3
        then (s.stable_count + 1) % 256 else 0 := rfl
  by_cases hch : (if s.last_valid_hr > 0 then
      |(dptHrAccept s raw).heart_rate - s.last_valid_hr| else 0) < 3
  · rw [if_pos hlv] at hch
    exact hch
  · rw [hstdef, if_neg hch] at hst
    omega

/-- Projections of the final full-path state of `DPT_Process` in terms of the
post-HR-section state. -/
theorem dpt_final_fields (t : DPTState) (c : ℕ) :
    ({ dptSpo2Update t with last_process_cycles := c }).hr_median_buffer = t.hr_median_buffer ∧
    ({ dptSpo2Update t with last_process_cycles := c }).hr_median_index = t.hr_median_index ∧
    ({ dptSpo2Update t with last_process_cycles := c }).hr_index = t.hr_index ∧
    ({ dptSpo2Update t with last_process_cycles := c }).last_valid_hr = t.last_valid_hr ∧
    ({ dptSpo2Update t with last_process_cycles := c }).ema_hr = t.ema_hr ∧
    ({ dptSpo2Update t with last_process_cycles := c }).heart_rate = t.heart_rate ∧
    ({ dptSpo2Update t with last_process_cycles := c }).stable_count = t.stable_count ∧
    ({ dptSpo2Update t with last_process_cycles := c }).hr_valid = t.hr_valid ∧
    ({ dptSpo2Update t with last_process_cycles := c }).peak_period = t.peak_period ∧
    ({ dptSpo2Update t with last_process_cycles := c }).red_dpt = t.red_dpt ∧
    ({ dptSpo2Update t with last_process_cycles := c }).ir_dpt = t.ir_dpt := by
  have h := dptSpo2Update_frame t
  exact ⟨h.2.2.2.2.2.2.1, h.2.2.2.2.2.2.2.1, h.2.2.2.2.2.2.2.2.2.1, h.2.2.2.2.2.1,
    h.2.2.1, h.2.2.2.2.1, h.2.1, h.1, h.2.2.2.1,
    h.2.2.2.2.2.2.2.2.2.2.1, h.2.2.2.2.2.2.2.2.2.2.2.1⟩

/-- Field equations of the HR accept path. -/
theorem dptHrAccept_fields (t : DPTState) (raw : ℝ) :
    (∀ j, (dptHrAccept t raw).hr_median_buffer j =
      if j = t.hr_median_index then raw else t.hr_median_buffer j) ∧
    (dptHrAccept t raw).hr_median_index = (t.hr_median_index + 1) % 7 ∧
    (dptHrAccept t raw).hr_index = (t.hr_index + 1) % 7 ∧
    (dptHrAccept t raw).peak_period = t.peak_period :=
  ⟨fun _ => rfl, rfl, rfl, rfl⟩

/-- Field equations of the HR reject path. -/
theorem dptHrReject_fields (t : DPTState) :
    (dptHrReject t).hr_median_buffer = t.hr_median_buffer ∧
    (dptHrReject t).hr_median_index = t.hr_median_index ∧
    (dptHrReject t).hr_index = t.hr_index ∧
    (dptHrReject t).last_valid_hr = t.last_valid_hr ∧
    (dptHrReject t).ema_hr = 0 ∧
    (dptHrReject t).stable_count = 0 ∧
    (dptHrReject t).hr_valid = false ∧
    (dptHrReject t).peak_period = t.peak_period :=
  ⟨rfl, rfl, rfl, rfl, rfl, rfl, rfl, rfl⟩

/-- The intermediate state copies every HR-pipeline field from the input. -/
theorem dptStepMid_fields (s : DPTState) (r i : ℤ) :
    (dptStepMid s r i).hr_median_buffer = s.hr_median_buffer ∧
    (dptStepMid s r i).hr_median_index = s.hr_median_index ∧
    (dptStepMid s r i).hr_index = s.hr_index ∧
    (dptStepMid s r i).last_valid_hr = s.last_valid_hr ∧
    (dptStepMid s r i).ema_hr = s.ema_hr ∧
    (dptStepMid s r i).stable_count = s.stable_count ∧
    (dptStepMid s r i).heart_rate = s.heart_rate :=
  ⟨rfl, rfl, rfl, rfl, rfl, rfl, rfl⟩

/-- Any `DPT_Process` call that ends with `hr_valid = true` took the full
accept path: the result is the SpO2-updated accept state (with the cycle
counter written), and the raw BPM derived from the peak was in [30,150]. -/
theorem DPT_Process_valid (c : ℕ) (s : DPTState) (r i : ℤ)
    (hv : (DPT_Process c s r i).hr_valid = true) :
    DPT_Process c s r i =
      { dptSpo2Update (dptHrAccept (dptStepMid s r i)
          (6000 / ((dptStepMid s r i).peak_period : ℝ))) with
          last_process_cycles := c } ∧
    30 ≤ 6000 / ((dptStepMid s r i).peak_period : ℝ) ∧
    6000 / ((dptStepMid s r i).peak_period : ℝ) ≤ 150 := by
  simp only [DPT_Process] at hv ⊢
  split_ifs at hv ⊢ with h1 h2 h3
  · exact ⟨rfl, h3.1, h3.2⟩
  · exfalso
    rw [(dpt_final_fields _ _).2.2.2.2.2.2.2.1, (dptHrReject_fields _).2.2.2.2.2.2.1] at hv
    exact Bool.false_ne_true hv
  · exfalso
    rw [(dpt_final_fields _ _).2.2.2.2.2.2.2.1, (dptHrReject_fields _).2.2.2.2.2.2.1] at hv
    exact Bool.false_ne_true hv

/-- The reachability invariant of Method 2's HR pipeline: the median ring holds
only zeros or plausible BPM values, the last valid HR and EMA are nonnegative,
and the ring indices are in range. -/
def M2Inv (s : DPTState) : Prop :=
  (∀ j, j < 7 → s.hr_median_buffer j = 0 ∨
    (30 ≤ s.hr_median_buffer j ∧ s.hr_median_buffer j ≤ 150)) ∧
  0 ≤ s.last_valid_hr ∧ 0 ≤ s.ema_hr ∧ s.hr_median_index < 7 ∧ s.hr_index < 7

/-- The invariant holds at `DPT_Init`. -/
theorem M2Inv_init : M2Inv DPT_Init := by
  refine ⟨?_, le_refl 0, le_refl 0, ?_, ?_⟩
  · intro j _
    exact Or.inl rfl
  · show (0 : ℕ) < 7
    omega
  · show (0 : ℕ) < 7
    omega

/-- The invariant is preserved by every `DPT_Process` call. -/
theorem M2Inv_step (c : ℕ) (s : DPTState) (r i : ℤ) (h : M2Inv s) :
    M2Inv (DPT_Process c s r i) := by
  obtain ⟨hmb, hlv, hema, hmi, hhi⟩ := h
  simp only [DPT_Process]
  split_ifs with h1 h2 h3
  · -- accept path
    have hpos := dptHrAccept_pos (dptStepMid s r i)
      (6000 / ((dptStepMid s r i).peak_period : ℝ)) hmb hmi hhi hlv hema h3.1 h3.2
    refine ⟨?_, ?_, ?_, ?_, ?_⟩
    · intro j hj
      rw [(dpt_final_fields _ _).1, (dptHrAccept_fields _ _).1 j]
      by_cases hje : j = (dptStepMid s r i).hr_median_index
      · rw [if_pos hje]
        exact Or.inr ⟨h3.1, h3.2⟩
      · rw [if_neg hje]
        exact hmb j hj
    · rw [(dpt_final_fields _ _).2.2.2.1, hpos.2.2]
      exact le_of_lt hpos.2.1
    · rw [(dpt_final_fields _ _).2.2.2.2.1]
      exact le_of_lt hpos.1
    · rw [(dpt_final_fields _ _).2.1, (dptHrAccept_fields _ _).2.1]
      omega
    · rw [(dpt_final_fields _ _).2.2.1, (dptHrAccept_fields _ _).2.2.1]
      omega
  · -- reject: BPM out of range
    refine ⟨?_, ?_, ?_, ?_, ?_⟩
    · intro j hj
      rw [(dpt_final_fields _ _).1, (dptHrReject_fields _).1]
      exact hmb j hj
    · rw [(dpt_final_fields _ _).2.2.2.1, (dptHrReject_fields _).2.2.2.1]
      exact hlv
    · rw [(dpt_final_fields _ _).2.2.2.2.1, (dptHrReject_fields _).2.2.2.2.1]
    · rw [(dpt_final_fields _ _).2.1, (dptHrReject_fields _).2.1]
      exact hmi
    · rw [(dpt_final_fields _ _).2.2.1, (dptHrReject_fields _).2.2.1]
      exact hhi
  · -- reject: no peak
    refine ⟨?_, ?_, ?_, ?_, ?_⟩
    · intro j hj
      rw [(dpt_final_fields _ _).1, (dptHrReject_fields _).1]
      exact hmb j hj
    · rw [(dpt_final_fields _ _).2.2.2.1, (dptHrReject_fields _).2.2.2.1]
      exact hlv
    · rw [(dpt_final_fields _ _).2.2.2.2.1, (dptHrReject_fields _).2.2.2.2.1]
    · rw [(dpt_final_fields _ _).2.1, (dptHrReject_fields _).2.1]
      exact hmi
    · rw [(dpt_final_fields _ _).2.2.1, (dptHrReject_fields _).2.2.1]
      exact hhi
  · -- early return
    exact ⟨hmb, hlv, hema, hmi, hhi⟩

/-- Core of C2 for Method 2: from any state satisfying the invariant, two
consecutive `DPT_Process` calls that both publish a valid heart rate differ by
less than 3 bpm, hence by at most the configured 8 bpm cap. -/
theorem m2_consecutive_valid_bound (s : DPTState) (hinv : M2Inv s)
    (c1 c2 : ℕ) (r1 i1 r2 i2 : ℤ)
    (hv1 : (DPT_Process c1 s r1 i1).hr_valid = true)
    (hv2 : (DPT_Process c2 (DPT_Process c1 s r1 i1) r2 i2).hr_valid = true) :
    |(DPT_Process c2 (DPT_Process c1 s r1 i1) r2 i2).heart_rate -
      (DPT_Process c1 s r1 i1).heart_rate| ≤ 8 := by
  obtain ⟨hmb, hlv, hema, hmi, hhi⟩ := hinv
  obtain ⟨he1, hlo1, hhi1⟩ := DPT_Process_valid c1 s r1 i1 hv1
  obtain ⟨he2, hlo2, hhi2⟩ := DPT_Process_valid c2 (DPT_Process c1 s r1 i1) r2 i2 hv2
  have hpos1 := dptHrAccept_pos (dptStepMid s r1 i1)
    (6000 / ((dptStepMid s r1 i1).peak_period : ℝ)) hmb hmi hhi hlv hema hlo1 hhi1
  have hhr1 : (DPT_Process c1 s r1 i1).heart_rate =
      (dptHrAccept (dptStepMid s r1 i1)
        (6000 / ((dptStepMid s r1 i1).peak_period : ℝ))).heart_rate := by
    rw [he1, (dpt_final_fields _ _).2.2.2.2.2.1]
  have hlast1 : (DPT_Process c1 s r1 i1).last_valid_hr =
      (DPT_Process c1 s r1 i1).heart_rate := by
    rw [he1, (dpt_final_fields _ _).2.2.2.1, (dpt_final_fields _ _).2.2.2.2.2.1]
    exact hpos1.2.2
  have hpos1hr : 0 < (DPT_Process c1 s r1 i1).heart_rate := by
    rw [hhr1]
    exact hpos1.2.1
  have hv2a : (dptHrAccept (dptStepMid (DPT_Process c1 s r1 i1) r2 i2)
      (6000 / ((dptStepMid (DPT_Process c1 s r1 i1) r2 i2).peak_period : ℝ))).hr_valid =
      true := by
    rw [he2, (dpt_final_fields _ _).2.2.2.2.2.2.2.1] at hv2
    exact hv2
  have hlvmid2 : 0 < (dptStepMid (DPT_Process c1 s r1 i1) r2 i2).last_valid_hr := by
    rw [(dptStepMid_fields _ _ _).2.2.2.1, hlast1]
    exact hpos1hr
  have hch := dptHrAccept_valid_change
    (dptStepMid (DPT_Process c1 s r1 i1) r2 i2)
    (6000 / ((dptStepMid (DPT_Process c1 s r1 i1) r2 i2).peak_period : ℝ)) hv2a hlvmid2
  have hhr2 : (DPT_Process c2 (DPT_Process c1 s r1 i1) r2 i2).heart_rate =
      (dptHrAccept (dptStepMid (DPT_Process c1 s r1 i1) r2 i2)
        (6000 / ((dptStepMid (DPT_Process c1 s r1 i1) r2 i2).peak_period : ℝ))).heart_rate := by
    rw [he2, (dpt_final_fields _ _).2.2.2.2.2.1]
  rw [(dptStepMid_fields _ _ _).2.2.2.1, hlast1] at hch
  rw [hhr2]
  have h3 := abs_lt.1 hch
  rw [abs_le]
  constructor <;> linarith [h3.1, h3.2]

/-- Run `DPT_Process` over a trace of (cycle-delta, red, ir) inputs from a
given state. -/
def dptRunFromState (s : DPTState) (l : List (ℕ × ℤ × ℤ)) : DPTState :=
  l.foldl (fun t e => DPT_Process e.1 t e.2.1 e.2.2) s

/-- Run `DPT_Process` over a trace from `DPT_Init`. -/
def dptRun (l : List (ℕ × ℤ × ℤ)) : DPTState := dptRunFromState DPT_Init l

/-- The invariant holds along every trace. -/
theorem M2Inv_run (l : List (ℕ × ℤ × ℤ)) : M2Inv (dptRun l) := by
  suffices h : ∀ s, M2Inv s → M2Inv (dptRunFromState s l) from h DPT_Init M2Inv_init
  induction l with
  | nil => intro s hs; exact hs
  | cons e t ih =>
    intro s hs
    exact ih _ (M2Inv_step e.1 s e.2.1 e.2.2 hs)

/-- One transform step never clears the full flag. -/
theorem dpt_transform_full_mono (d : DPTTransform) (ac : ℤ) (cb sb : ℕ → ℝ)
    (h : d.buffer_full = true) :
    (dpt_transform_process d ac cb sb).buffer_full = true := by
  rw [(dpt_process_bookkeeping d ac cb sb).2.2.2.1, h]
  exact ite_self true

/-- The post-mid state's transforms remember the full flags. -/
theorem dptStepMid_dpts (s : DPTState) (r i : ℤ) :
    (dptStepMid s r i).red_dpt.buffer_full =
      (dpt_transform_process s.red_dpt (iir_filter_process s.red_filter r).ac_value
        s.cos_basis s.sin_basis).buffer_full ∧
    (dptStepMid s r i).ir_dpt.buffer_full =
      (dpt_transform_process s.ir_dpt (iir_filter_process s.ir_filter i).ac_value
        s.cos_basis s.sin_basis).buffer_full :=
  ⟨rfl, rfl⟩

/-- `DPT_Process` never clears either channel's full flag. -/
theorem DPT_Process_full_mono (c : ℕ) (s : DPTState) (r i : ℤ) :
    (s.red_dpt.buffer_full = true →
      (DPT_Process c s r i).red_dpt.buffer_full = true) ∧
    (s.ir_dpt.buffer_full = true →
      (DPT_Process c s r i).ir_dpt.buffer_full = true) := by
  have hmono1 := fun h => dpt_transform_full_mono s.red_dpt
    (iir_filter_process s.red_filter r).ac_value s.cos_basis s.sin_basis h
  have hmono2 := fun h => dpt_transform_full_mono s.ir_dpt
    (iir_filter_process s.ir_filter i).ac_value s.cos_basis s.sin_basis h
  simp only [DPT_Process]
  split_ifs with h1 h2 h3
  · constructor
    · intro h
      rw [(dpt_final_fields _ _).2.2.2.2.2.2.2.2.2.1]
      rw [show (dptHrAccept (dptStepMid s r i)
        (6000 / ((dptStepMid s r i).peak_period : ℝ))).red_dpt =
          (dptStepMid s r i).red_dpt from rfl]
      rw [(dptStepMid_dpts s r i).1]
      exact hmono1 h
    · intro h
      rw [(dpt_final_fields _ _).2.2.2.2.2.2.2.2.2.2]
      rw [show (dptHrAccept (dptStepMid s r i)
        (6000 / ((dptStepMid s r i).peak_period : ℝ))).ir_dpt =
          (dptStepMid s r i).ir_dpt from rfl]
      rw [(dptStepMid_dpts s r i).2]
      exact hmono2 h
  · constructor
    · intro h
      rw [(dpt_final_fields _ _).2.2.2.2.2.2.2.2.2.1]
      rw [show (dptHrReject (dptStepMid s r i)).red_dpt =
          (dptStepMid s r i).red_dpt from rfl]
      rw [(dptStepMid_dpts s r i).1]
      exact hmono1 h
    · intro h
      rw [(dpt_final_fields _ _).2.2.2.2.2.2.2.2.2.2]
      rw [show (dptHrReject (dptStepMid s r i)).ir_dpt =
          (dptStepMid s r i).ir_dpt from rfl]
      rw [(dptStepMid_dpts s r i).2]
      exact hmono2 h
  · constructor
    · intro h
      rw [(dpt_final_fields _ _).2.2.2.2.2.2.2.2.2.1]
      rw [show (dptHrReject (dptStepMid s r i)).red_dpt =
          (dptStepMid s r i).red_dpt from rfl]
      rw [(dptStepMid_dpts s r i).1]
      exact hmono1 h
    · intro h
      rw [(dpt_final_fields _ _).2.2.2.2.2.2.2.2.2.2]
      rw [show (dptHrReject (dptStepMid s r i)).ir_dpt =
          (dptStepMid s r i).ir_dpt from rfl]
      rw [(dptStepMid_dpts s r i).2]
      exact hmono2 h
  · exact ⟨hmono1, hmono2⟩

/-- Full flags of both channels stay set along any `DPT_Process` trace. -/
theorem dptRunFromState_full_mono (l : List (ℕ × ℤ × ℤ)) : ∀ s : DPTState,
    (s.red_dpt.buffer_full = true →
      (dptRunFromState s l).red_dpt.buffer_full = true) ∧
    (s.ir_dpt.buffer_full = true →
      (dptRunFromState s l).ir_dpt.buffer_full = true) := by
  induction l with
  | nil => intro s; exact ⟨fun h => h, fun h => h⟩
  | cons e t ih =>
    intro s
    constructor
    · intro h
      exact (ih (DPT_Process e.1 s e.2.1 e.2.2)).1
        ((DPT_Process_full_mono e.1 s e.2.1 e.2.2).1 h)
    · intro h
      exact (ih (DPT_Process e.1 s e.2.1 e.2.2)).2
        ((DPT_Process_full_mono e.1 s e.2.1 e.2.2).2 h)

/-- The intermediate state commutes with overwriting the cycle counter. -/
theorem dptStepMid_cycles (s : DPTState) (v : ℕ) (r i : ℤ) :
    dptStepMid { s with last_process_cycles := v } r i =
      { dptStepMid s r i with last_process_cycles := v } := rfl

/-- The accept path commutes with overwriting the cycle counter. -/
theorem dptHrAccept_cycles (t : DPTState) (v : ℕ) (raw : ℝ) :
    dptHrAccept { t with last_process_cycles := v } raw =
      { dptHrAccept t raw with last_process_cycles := v } := rfl

/-- The reject path commutes with overwriting the cycle counter. -/
theorem dptHrReject_cycles (t : DPTState) (v : ℕ) :
    dptHrReject { t with last_process_cycles := v } =
      { dptHrReject t with last_process_cycles := v } := rfl

/-- The SpO2 section commutes with overwriting the cycle counter. -/
theorem dptSpo2Update_cycles (t : DPTState) (v : ℕ) :
    dptSpo2Update { t with last_process_cycles := v } =
      { dptSpo2Update t with last_process_cycles := v } := by
  simp only [dptSpo2Update]
  split_ifs <;> rfl

/-- Unfolding of `DPT_Process` when both channels are full. -/
theorem DPT_Process_eq_full (c : ℕ) (s : DPTState) (r i : ℤ)
    (hc : (dpt_transform_process s.red_dpt (iir_filter_process s.red_filter r).ac_value
        s.cos_basis s.sin_basis).buffer_full = true ∧
      (dpt_transform_process s.ir_dpt (iir_filter_process s.ir_filter i).ac_value
        s.cos_basis s.sin_basis).buffer_full = true) :
    DPT_Process c s r i =
      { dptSpo2Update
          (if 0 < (dptStepMid s r i).peak_period then
            (if 30 ≤ 6000 / ((dptStepMid s r i).peak_period : ℝ) ∧
                6000 / ((dptStepMid s r i).peak_period : ℝ) ≤ 150 then
              dptHrAccept (dptStepMid s r i) (6000 / ((dptStepMid s r i).peak_period : ℝ))
            else dptHrReject (dptStepMid s r i))
          else dptHrReject (dptStepMid s r i)) with
          last_process_cycles := c } := by
  simp only [DPT_Process]
  rw [if_pos hc]

/-- Unfolding of `DPT_Process` while either channel is still filling. -/
theorem DPT_Process_eq_early (c : ℕ) (s : DPTState) (r i : ℤ)
    (hc : ¬((dpt_transform_process s.red_dpt (iir_filter_process s.red_filter r).ac_value
        s.cos_basis s.sin_basis).buffer_full = true ∧
      (dpt_transform_process s.ir_dpt (iir_filter_process s.ir_filter i).ac_value
        s.cos_basis s.sin_basis).buffer_full = true)) :
    DPT_Process c s r i =
      { s with
          red_filter := iir_filter_process s.red_filter r
          ir_filter := iir_filter_process s.ir_filter i
          red_dpt := dpt_transform_process s.red_dpt
            (iir_filter_process s.red_filter r).ac_value s.cos_basis s.sin_basis
          ir_dpt := dpt_transform_process s.ir_dpt
            (iir_filter_process s.ir_filter i).ac_value s.cos_basis s.sin_basis
          hr_valid := false
          spo2_valid := false } := by
  simp only [DPT_Process]
  rw [if_neg hc]

/-- Overwriting the cycle counter commutes with a branch on any condition. -/
theorem ite_cycles (P : Prop) [Decidable P] (a b : DPTState) (v : ℕ) :
    (if P then ({ a with last_process_cycles := v } : DPTState)
      else { b with last_process_cycles := v }) =
    { (if P then a else b) with last_process_cycles := v } := by
  split_ifs <;> rfl

/-- The cycle counter held in the input state never influences any other
field of the `DPT_Process` result. -/
theorem DPT_Process_cycles_agnostic (c v : ℕ) (s : DPTState) (r i : ℤ) :
    { DPT_Process c { s with last_process_cycles := v } r i with last_process_cycles := 0 } =
      { DPT_Process c s r i with last_process_cycles := 0 } := by
  by_cases hc : (dpt_transform_process s.red_dpt (iir_filter_process s.red_filter r).ac_value
      s.cos_basis s.sin_basis).buffer_full = true ∧
    (dpt_transform_process s.ir_dpt (iir_filter_process s.ir_filter i).ac_value
      s.cos_basis s.sin_basis).buffer_full = true
  · have hc' : (dpt_transform_process ({ s with last_process_cycles := v }).red_dpt
        (iir_filter_process ({ s with last_process_cycles := v }).red_filter r).ac_value
        ({ s with last_process_cycles := v }).cos_basis
        ({ s with last_process_cycles := v }).sin_basis).buffer_full = true ∧
      (dpt_transform_process ({ s with last_process_cycles := v }).ir_dpt
        (iir_filter_process ({ s with last_process_cycles := v }).ir_filter i).ac_value
        ({ s with last_process_cycles := v }).cos_basis
        ({ s with last_process_cycles := v }).sin_basis).buffer_full = true := hc
    rw [DPT_Process_eq_full c { s with last_process_cycles := v } r i hc',
      DPT_Process_eq_full c s r i hc]
    rw [dptStepMid_cycles]
    have hpp : ({ dptStepMid s r i with last_process_cycles := v }).peak_period =
        (dptStepMid s r i).peak_period := rfl
    rw [hpp, dptHrAccept_cycles, dptHrReject_cycles]
    rw [ite_cycles, ite_cycles, dptSpo2Update_cycles]
  · have hc' : ¬((dpt_transform_process ({ s with last_process_cycles := v }).red_dpt
        (iir_filter_process ({ s with last_process_cycles := v }).red_filter r).ac_value
        ({ s with last_process_cycles := v }).cos_basis
        ({ s with last_process_cycles := v }).sin_basis).buffer_full = true ∧
      (dpt_transform_process ({ s with last_process_cycles := v }).ir_dpt
        (iir_filter_process ({ s with last_process_cycles := v }).ir_filter i).ac_value
        ({ s with last_process_cycles := v }).cos_basis
        ({ s with last_process_cycles := v }).sin_basis).buffer_full = true) := hc
    rw [DPT_Process_eq_early c { s with last_process_cycles := v } r i hc',
      DPT_Process_eq_early c s r i hc]

/-- The measured cycle delta influences only the cycle-counter field. -/
theorem DPT_Process_cycle_arg (c1 c2 : ℕ) (s : DPTState) (r i : ℤ) :
    { DPT_Process c1 s r i with last_process_cycles := 0 } =
      { DPT_Process c2 s r i with last_process_cycles := 0 } := by
  by_cases hc : (dpt_transform_process s.red_dpt (iir_filter_process s.red_filter r).ac_value
      s.cos_basis s.sin_basis).buffer_full = true ∧
    (dpt_transform_process s.ir_dpt (iir_filter_process s.ir_filter i).ac_value
      s.cos_basis s.sin_basis).buffer_full = true
  · rw [DPT_Process_eq_full c1 s r i hc, DPT_Process_eq_full c2 s r i hc]
  · rw [DPT_Process_eq_early c1 s r i hc, DPT_Process_eq_early c2 s r i hc]

/-- The externally published Method 2 outputs after each processed sample. -/
def m2OutSeq : DPTState → List (ℕ × ℤ × ℤ) → List (ℝ × Bool × ℝ × Bool)
  | _, [] => []
  | s, e :: t =>
    ((DPT_Process e.1 s e.2.1 e.2.2).heart_rate,
      (DPT_Process e.1 s e.2.1 e.2.2).hr_valid,
      (DPT_Process e.1 s e.2.1 e.2.2).spo2,
      (DPT_Process e.1 s e.2.1 e.2.2).spo2_valid) :: m2OutSeq (DPT_Process e.1 s e.2.1 e.2.2) t

/-- Output sequences agree along runs whose states differ only in the cycle
counter, as long as the raw sample payloads agree. -/
theorem m2OutSeq_cycle_indep (l1 : List (ℕ × ℤ × ℤ)) : ∀ (l2 : List (ℕ × ℤ × ℤ))
    (s1 s2 : DPTState),
    l1.map (fun e => e.2) = l2.map (fun e => e.2) →
    ({ s1 with last_process_cycles := 0 } : DPTState) = { s2 with last_process_cycles := 0 } →
    m2OutSeq s1 l1 = m2OutSeq s2 l2 := by
  induction l1 with
  | nil =>
    intro l2 s1 s2 hmap _
    have : l2 = [] := by
      have h0 : List.map (fun e : ℕ × ℤ × ℤ => e.2) l2 = [] := hmap.symm
      exact List.map_eq_nil_iff.1 h0
    rw [this]
    rfl
  | cons e t ih =>
    intro l2 s1 s2 hmap hst
    match l2 with
    | [] => simp at hmap
    | e2 :: t2 =>
      rw [List.map_cons, List.map_cons] at hmap
      have hpay : e.2 = e2.2 := (List.cons.injEq _ _ _ _ ▸ hmap).1
      have htail : t.map (fun e => e.2) = t2.map (fun e => e.2) :=
        (List.cons.injEq _ _ _ _ ▸ hmap).2
      have hs1 : s1 = { s2 with last_process_cycles := s1.last_process_cycles } := by
        have h1 : ({ s1 with last_process_cycles := s1.last_process_cycles } : DPTState) = s1 :=
          rfl
      -- transport the erased equality through the structure update
        calc s1 = { ({ s1 with last_process_cycles := 0 } : DPTState) with
              last_process_cycles := s1.last_process_cycles } := rfl
          _ = { ({ s2 with last_process_cycles := 0 } : DPTState) with
              last_process_cycles := s1.last_process_cycles } := by rw [hst]
          _ = { s2 with last_process_cycles := s1.last_process_cycles } := rfl
      have hstep : ({ DPT_Process e.1 s1 e.2.1 e.2.2 with last_process_cycles := 0 } : DPTState) =
          { DPT_Process e2.1 s2 e2.2.1 e2.2.2 with last_process_cycles := 0 } := by
        rw [hs1, ← hpay]
        calc ({ DPT_Process e.1 { s2 with last_process_cycles := s1.last_process_cycles }
              e.2.1 e.2.2 with last_process_cycles := 0 } : DPTState)
            = { DPT_Process e.1 s2 e.2.1 e.2.2 with last_process_cycles := 0 } :=
              DPT_Process_cycles_agnostic e.1 s1.last_process_cycles s2 e.2.1 e.2.2
          _ = { DPT_Process e2.1 s2 e.2.1 e.2.2 with last_process_cycles := 0 } :=
              DPT_Process_cycle_arg e.1 e2.1 s2 e.2.1 e.2.2
      have houts : (DPT_Process e.1 s1 e.2.1 e.2.2).heart_rate =
            (DPT_Process e2.1 s2 e2.2.1 e2.2.2).heart_rate ∧
          (DPT_Process e.1 s1 e.2.1 e.2.2).hr_valid =
            (DPT_Process e2.1 s2 e2.2.1 e2.2.2).hr_valid ∧
          (DPT_Process e.1 s1 e.2.1 e.2.2).spo2 =
            (DPT_Process e2.1 s2 e2.2.1 e2.2.2).spo2 ∧
          (DPT_Process e.1 s1 e.2.1 e.2.2).spo2_valid =
            (DPT_Process e2.1 s2 e2.2.1 e2.2.2).spo2_valid := by
        have h1 := congrArg (fun s : DPTState => s.heart_rate) hstep
        have h2 := congrArg (fun s : DPTState => s.hr_valid) hstep
        have h3 := congrArg (fun s : DPTState => s.spo2) hstep
        have h4 := congrArg (fun s : DPTState => s.spo2_valid) hstep
        exact ⟨h1, h2, h3, h4⟩
      show (_, _, _, _) :: m2OutSeq (DPT_Process e.1 s1 e.2.1 e.2.2) t =
        (_, _, _, _) :: m2OutSeq (DPT_Process e2.1 s2 e2.2.1 e2.2.2) t2
      rw [houts.1, houts.2.1, houts.2.2.1, houts.2.2.2]
      rw [ih t2 _ _ htail hstep]

/-! ### Method 1 heart-rate estimator (`HR_State_t`, `ppg_algorithm.c`) -/

/-- `HR_State_t`: the AC sample ring, the incremental (Welford) statistics,
the signal-quality fields and the smoothing/validation state. -/
structure HRState where
  buffer : ℕ → ℝ
  buffer_index : ℕ
  buffer_full : Bool
  last_peak_index : ℕ
  global_index : ℕ
  rolling_mean : ℝ
  rolling_variance : ℝ
  rolling_count : ℕ
  recent_dc_value : ℝ
  peak_amplitude : ℝ
  ac_dc_ratio : ℝ
  signal_quality : ℕ
  consecutive_invalid : ℕ
  hr_history : ℕ → ℝ
  hr_history_index : ℕ
  hr_history_count : ℕ
  last_hr : ℝ
  ema_hr : ℝ
  hr_valid : Bool
  stable_count : ℕ

/-- `HR_Init`: everything zeroed. -/
def HR_Init : HRState :=
  { buffer := fun _ => 0
    buffer_index := 0
    buffer_full := false
    last_peak_index := 0
    global_index := 0
    rolling_mean := 0
    rolling_variance := 0
    rolling_count := 0
    recent_dc_value := 0
    peak_amplitude := 0
    ac_dc_ratio := 0
    signal_quality := 0
    consecutive_invalid := 0
    hr_history := fun _ => 0
    hr_history_index := 0
    hr_history_count := 0
    last_hr := 0
    ema_hr := 0
    hr_valid := false
    stable_count := 0 }

/-- `HR_Reset`: partial reset that keeps the sample ring, its indices and the
rolling statistics, clearing only the smoothing/validation and quality state. -/
def HR_Reset (s : HRState) : HRState :=
  { s with
      hr_history_index := 0
      hr_history_count := 0
      last_hr := 0
      ema_hr := 0
      hr_valid := false
      stable_count := 0
      consecutive_invalid := 0
      signal_quality := 0
      peak_amplitude := 0
      recent_dc_value := 0 }

/-- `HR_AddSample`: store the AC value in the ring, advance the (16-bit)
indices, update the Welford statistics (recomputing them from the ring once
the window saturates with a full buffer), and refresh the AC/DC ratio. -/
def HR_AddSample (s : HRState) (ac dc : ℝ) : HRState :=
  let buf := fun j => if j = s.buffer_index then ac else s.buffer j
  let bi := if 160 ≤ s.buffer_index + 1 then 0 else s.buffer_index + 1
  let full := if 160 ≤ s.buffer_index + 1 then true else s.buffer_full
  let gi := (s.global_index + 1) % 65536
  let mean1 := if s.rolling_count = 0 then ac
    else s.rolling_mean + (ac - s.rolling_mean) / ((s.rolling_count : ℝ) + 1)
  let var1 := if s.rolling_count = 0 then 0
    else s.rolling_variance + (ac - s.rolling_mean) * (ac - mean1)
  let rc1 := (s.rolling_count + 1) % 65536
  let rc2 := if 160 < rc1 then 160 else rc1
  let mean2 := if 160 < rc1 ∧ full = true
    then (∑ i ∈ Finset.range 160, buf i) / 160 else mean1
  let var2 := if 160 < rc1 ∧ full = true
    then (∑ i ∈ Finset.range 160, (buf i - mean2) * (buf i - mean2)) / 160 else var1
  let ratio := if 1000 < dc then Real.sqrt var2 / dc else s.ac_dc_ratio
  { s with
      buffer := buf
      buffer_index := bi
      buffer_full := full
      global_index := gi
      rolling_mean := mean2
      rolling_variance := var2
      rolling_count := rc2
      recent_dc_value := dc
      ac_dc_ratio := ratio }

/-- `assess_signal_quality`: count the AC/DC-ratio, signal-strength and
peak-amplitude checks that pass and map the count to the 0-2 scale. -/
def assess_signal_quality (s : HRState) : ℕ :=
  let q1 : ℕ := if 0.01 ≤ s.ac_dc_ratio then 1 else 0
  let q2 : ℕ := if 5 ≤ Real.sqrt s.rolling_variance then 1 else 0
  let q3 : ℕ := if 10 ≤ s.peak_amplitude then 1 else 0
  if 3 ≤ q1 + q2 + q3 then 2 else if 2 ≤ q1 + q2 + q3 then 1 else 0

/-- The rejection epilogue shared by every reject path of `HR_Calculate`:
bump the (8-bit) consecutive-invalid counter, auto-reset at the threshold of
2, clear the validity flag and return the (possibly reset) last HR. -/
def m1Reject (s : HRState) : ℝ × HRState :=
  let s1 := { s with consecutive_invalid := (s.consecutive_invalid + 1) % 256 }
  let s2 := if 2 ≤ (s.consecutive_invalid + 1) % 256 then HR_Reset s1 else s1
  let s3 := { s2 with hr_valid := false }
  (s3.last_hr, s3)

/-- The per-candidate state of the peak scan inside `HR_Calculate`: accepted
peak indices (most recent first), the running min/max, and whether the scan
broke out after 20 peaks. -/
structure M1Scan where
  peaks : List ℕ
  min_val : ℝ
  max_val : ℝ
  stopped : Bool

/-- One iteration of the peak-scan loop of `HR_Calculate`: track min/max,
test the 3-sample-neighborhood local-maximum and threshold conditions, and
accept the index if it is at least `MIN_PEAK_DISTANCE` past the last one. -/
def m1ScanStep (buf : ℕ → ℝ) (threshold : ℝ) (st : M1Scan) (i : ℕ) : M1Scan :=
  if st.stopped = true then st
  else
    let mn := if buf i < st.min_val then buf i else st.min_val
    let mx := if st.max_val < buf i then buf i else st.max_val
    if (buf (i - 1) < buf i ∧ buf (i - 2) < buf i ∧ buf (i - 3) < buf i ∧
        buf (i + 1) < buf i ∧ buf (i + 2) < buf i ∧ buf (i + 3) < buf i ∧
        threshold < buf i) ∧
        (st.peaks = [] ∨ 40 ≤ i - st.peaks.headD 0) then
      { peaks := i :: st.peaks
        min_val := mn
        max_val := mx
        stopped := decide (20 ≤ (i :: st.peaks).length) }
    else
      { peaks := st.peaks
        min_val := mn
        max_val := mx
        stopped := st.stopped }

/-- The whole peak scan: indices 3..156 with min/max seeded at the mean. -/
def m1ScanRun (buf : ℕ → ℝ) (mean threshold : ℝ) : M1Scan :=
  (List.range' 3 154).foldl (m1ScanStep buf threshold) ⟨[], mean, mean, false⟩

/-- The adaptive peak threshold of `HR_Calculate`: mean plus a
quality-dependent multiple of the rolling standard deviation. -/
def m1Threshold (s : HRState) : ℝ :=
  let q := assess_signal_quality s
  let mult : ℝ := if q = 2 then 0.4 else if q = 1 then 0.5 else 0.6
  s.rolling_mean + mult * Real.sqrt (s.rolling_variance / (s.rolling_count : ℝ))

/-- Peak-to-peak intervals between successive accepted peaks (in ascending
index order), kept only when inside `[MIN_PEAK_DISTANCE, MAX_PEAK_DISTANCE]`. -/
def m1Intervals (peaks : List ℕ) : List ℝ :=
  ((peaks.zip peaks.tail).map (fun pr => ((pr.2 - pr.1 : ℕ) : ℝ))).filter
    (fun d => decide (40 ≤ d) && decide (d ≤ 160))

/-- The robust median interval: median of the intervals, re-filtered to the
20-sample neighborhood of the median when the spread is large. -/
def m1MedianInterval (ints : List ℝ) : ℝ :=
  let med := m1_median_filter ints
  let mean := ints.sum / (ints.length : ℝ)
  let var := (ints.map (fun d => (d - mean) * (d - mean))).sum / (ints.length : ℝ)
  if 15 < Real.sqrt var ∧ 2 < ints.length then
    let f := ints.filter (fun d => decide (|d - med| < 20))
    if 2 ≤ f.length then m1_median_filter f else med
  else med

/-- The BPM candidate computed by `HR_Calculate` from the state's ring. -/
def m1HrOf (s : HRState) : ℝ :=
  6000 / m1MedianInterval
    (m1Intervals (m1ScanRun s.buffer s.rolling_mean (m1Threshold s)).peaks.reverse)

/-- The state of `HR_Calculate` after signal-quality assessment, the
consecutive-invalid clearing and the peak-amplitude update (the common state
of the geometry reject paths and the accept path). -/
def m1MidState (s : HRState) : HRState :=
  { s with
      signal_quality := assess_signal_quality s
      consecutive_invalid := 0
      peak_amplitude := (m1ScanRun s.buffer s.rolling_mean (m1Threshold s)).max_val -
        (m1ScanRun s.buffer s.rolling_mean (m1Threshold s)).min_val }

/-- The accept epilogue of `HR_Calculate` (steps 9-12): push into the 5-slot
median ring, median-filter, rate-limit against the EMA, blend (or seed) the
EMA, and run the stability check that can set the validity flag. -/
def m1Accept (s : HRState) (hr : ℝ) : ℝ × HRState :=
  let hist := fun j => if j = s.hr_history_index then hr else s.hr_history j
  let idx := (s.hr_history_index + 1) % 5
  let cnt := if s.hr_history_count < 5 then s.hr_history_count + 1 else s.hr_history_count
  let fc := m1_median_filter ((List.range cnt).map hist)
  let fc2 := if 0 < s.ema_hr then
      (if 6 < fc - s.ema_hr then s.ema_hr + 6
        else if fc - s.ema_hr < -6 then s.ema_hr - 6
        else fc)
    else fc
  let ema := if s.ema_hr = 0 then fc2 else 0.2 * fc2 + (1 - 0.2) * s.ema_hr
  let stable := if 2 ≤ cnt then
      (if |ema - s.last_hr| < 6 ∨ s.last_hr = 0 then (s.stable_count + 1) % 256 else 0)
    else s.stable_count
  let valid := if 2 ≤ cnt ∧ 2 ≤ stable then true else s.hr_valid
  let ci := if 2 ≤ cnt ∧ 2 ≤ stable then 0 else s.consecutive_invalid
  (ema, { s with
      hr_history := hist
      hr_history_index := idx
      hr_history_count := cnt
      ema_hr := ema
      stable_count := stable
      hr_valid := valid
      consecutive_invalid := ci
      last_hr := ema })

/-- `HR_Calculate`: early return while the ring is filling, signal-quality
gate, peak scan, interval statistics and the accept epilogue. -/
def HR_Calculate (s : HRState) : ℝ × HRState :=
  if s.buffer_full = false then (s.last_hr, s)
  else
    let q := assess_signal_quality s
    let s1 := { s with signal_quality := q }
    if q = 0 then m1Reject s1
    else
      let s2 := { s1 with consecutive_invalid := 0 }
      let scan := m1ScanRun s.buffer s.rolling_mean (m1Threshold s)
      let s3 := { s2 with peak_amplitude := scan.max_val - scan.min_val }
      if scan.peaks.length < 2 then m1Reject s3
      else
        let ints := m1Intervals scan.peaks.reverse
        if ints.length < 2 then m1Reject s3
        else
          let hr := 6000 / m1MedianInterval ints
          if hr < 30 ∨ 180 < hr then m1Reject s3
          else m1Accept s3 hr

/-- The branch conditions under which `HR_Calculate` takes its accept path. -/
def m1Accepts (s : HRState) : Prop :=
  s.buffer_full = true ∧ assess_signal_quality s ≠ 0 ∧
  ¬ (m1ScanRun s.buffer s.rolling_mean (m1Threshold s)).peaks.length < 2 ∧
  ¬ (m1Intervals (m1ScanRun s.buffer s.rolling_mean (m1Threshold s)).peaks.reverse).length < 2 ∧
  ¬ (m1HrOf s < 30 ∨ 180 < m1HrOf s)

/-- The branch conditions under which `HR_Calculate` performs its internal
`HR_Reset` (two consecutive poor-quality computations). -/
def m1AutoResets (s : HRState) : Prop :=
  s.buffer_full = true ∧ assess_signal_quality s = 0 ∧
  2 ≤ (s.consecutive_invalid + 1) % 256

/-- When the ring is not yet full, `HR_Calculate` returns the last HR and
leaves the state untouched. -/
theorem HR_Calculate_early (s : HRState) (h : s.buffer_full = false) :
    HR_Calculate s = (s.last_hr, s) := by
  simp only [HR_Calculate]
  rw [if_pos h]

/-- On a poor-quality signal, `HR_Calculate` runs the reject epilogue on the
state with the stored quality. -/
theorem HR_Calculate_quality (s : HRState) (hfull : s.buffer_full = true)
    (hq : assess_signal_quality s = 0) :
    HR_Calculate s = m1Reject { s with signal_quality := assess_signal_quality s } := by
  simp only [HR_Calculate]
  rw [if_neg (by simp [hfull]), if_pos hq]

/-- On a geometry failure (too few peaks, too few valid intervals, or a BPM
out of range), `HR_Calculate` runs the reject epilogue on the mid state. -/
theorem HR_Calculate_geom (s : HRState) (hfull : s.buffer_full = true)
    (hq : ¬ assess_signal_quality s = 0)
    (hgeom : (m1ScanRun s.buffer s.rolling_mean (m1Threshold s)).peaks.length < 2 ∨
      (m1Intervals (m1ScanRun s.buffer s.rolling_mean (m1Threshold s)).peaks.reverse).length < 2 ∨
      (m1HrOf s < 30 ∨ 180 < m1HrOf s)) :
    HR_Calculate s = m1Reject (m1MidState s) := by
  simp only [HR_Calculate, m1MidState, m1HrOf]
  rw [if_neg (by simp [hfull]), if_neg hq]
  by_cases h1 : (m1ScanRun s.buffer s.rolling_mean (m1Threshold s)).peaks.length < 2
  · rw [if_pos h1]
  · rw [if_neg h1]
    by_cases h2 : (m1Intervals
        (m1ScanRun s.buffer s.rolling_mean (m1Threshold s)).peaks.reverse).length < 2
    · rw [if_pos h2]
    · rw [if_neg h2]
      have h3 : 6000 / m1MedianInterval
          (m1Intervals (m1ScanRun s.buffer s.rolling_mean (m1Threshold s)).peaks.reverse) < 30 ∨
          180 < 6000 / m1MedianInterval
            (m1Intervals (m1ScanRun s.buffer s.rolling_mean (m1Threshold s)).peaks.reverse) := by
        rcases hgeom with h | h | h
        · exact absurd h h1
        · exact absurd h h2
        · exact h
      rw [if_pos h3]

/-- When every gate passes, `HR_Calculate` runs the accept epilogue on the
mid state with the computed BPM candidate. -/
theorem HR_Calculate_accept (s : HRState) (h : m1Accepts s) :
    HR_Calculate s = m1Accept (m1MidState s) (m1HrOf s) := by
  obtain ⟨hfull, hq, h1, h2, h3⟩ := h
  simp only [HR_Calculate, m1MidState, m1HrOf] at h3 ⊢
  rw [if_neg (by simp [hfull]), if_neg hq, if_neg h1, if_neg h2, if_neg h3]

/-- The two shapes of the reject epilogue: auto-reset at two consecutive
invalid computations, or a plain invalidation. -/
theorem m1Reject_cases (t : HRState) :
    (2 ≤ (t.consecutive_invalid + 1) % 256 ∧
      m1Reject t = (0, { HR_Reset { t with
        consecutive_invalid := (t.consecutive_invalid + 1) % 256 } with
          hr_valid := false })) ∨
    (¬ 2 ≤ (t.consecutive_invalid + 1) % 256 ∧
      m1Reject t = (t.last_hr, { t with
        consecutive_invalid := (t.consecutive_invalid + 1) % 256
        hr_valid := false })) := by
  simp only [m1Reject]
  by_cases h : 2 ≤ (t.consecutive_invalid + 1) % 256
  · left
    rw [if_pos h]
    exact ⟨h, rfl⟩
  · right
    rw [if_neg h]
    exact ⟨h, rfl⟩

/-- The reject epilogue always clears the validity flag, returns the final
last HR, and preserves both the ring and its full flag. -/
theorem m1Reject_fields (t : HRState) :
    (m1Reject t).2.hr_valid = false ∧
    (m1Reject t).1 = (m1Reject t).2.last_hr ∧
    (m1Reject t).2.buffer_full = t.buffer_full ∧
    (m1Reject t).2.buffer = t.buffer := by
  refine ⟨rfl, rfl, ?_, ?_⟩
  · simp only [m1Reject]
    split_ifs <;> rfl
  · simp only [m1Reject]
    split_ifs <;> rfl

/-- Field projections of the accept epilogue. -/
theorem m1Accept_fields (t : HRState) (hr : ℝ) :
    (∀ j, (m1Accept t hr).2.hr_history j =
      if j = t.hr_history_index then hr else t.hr_history j) ∧
    (m1Accept t hr).2.hr_history_index = (t.hr_history_index + 1) % 5 ∧
    (m1Accept t hr).2.hr_history_count =
      (if t.hr_history_count < 5 then t.hr_history_count + 1 else t.hr_history_count) ∧
    (m1Accept t hr).2.last_hr = (m1Accept t hr).2.ema_hr ∧
    (m1Accept t hr).1 = (m1Accept t hr).2.ema_hr ∧
    (m1Accept t hr).2.buffer_full = t.buffer_full ∧
    (m1Accept t hr).2.buffer = t.buffer :=
  ⟨fun _ => rfl, rfl, rfl, rfl, rfl, rfl, rfl⟩

/-- The EMA produced by the accept epilogue, written out. -/
theorem m1Accept_ema (t : HRState) (hr : ℝ) :
    (m1Accept t hr).2.ema_hr =
      (if t.ema_hr = 0 then
        (if 0 < t.ema_hr then
          (if 6 < m1_median_filter ((List.range (if t.hr_history_count < 5 then
                t.hr_history_count + 1 else t.hr_history_count)).map
              (fun j => if j = t.hr_history_index then hr else t.hr_history j)) - t.ema_hr
            then t.ema_hr + 6
            else if m1_median_filter ((List.range (if t.hr_history_count < 5 then
                t.hr_history_count + 1 else t.hr_history_count)).map
              (fun j => if j = t.hr_history_index then hr else t.hr_history j)) - t.ema_hr < -6
            then t.ema_hr - 6
            else m1_median_filter ((List.range (if t.hr_history_count < 5 then
                t.hr_history_count + 1 else t.hr_history_count)).map
              (fun j => if j = t.hr_history_index then hr else t.hr_history j)))
          else m1_median_filter ((List.range (if t.hr_history_count < 5 then
                t.hr_history_count + 1 else t.hr_history_count)).map
              (fun j => if j = t.hr_history_index then hr else t.hr_history j)))
      else 0.2 * (if 0 < t.ema_hr then
          (if 6 < m1_median_filter ((List.range (if t.hr_history_count < 5 then
                t.hr_history_count + 1 else t.hr_history_count)).map
              (fun j => if j = t.hr_history_index then hr else t.hr_history j)) - t.ema_hr
            then t.ema_hr + 6
            else if m1_median_filter ((List.range (if t.hr_history_count < 5 then
                t.hr_history_count + 1 else t.hr_history_count)).map
              (fun j => if j = t.hr_history_index then hr else t.hr_history j)) - t.ema_hr < -6
            then t.ema_hr - 6
            else m1_median_filter ((List.range (if t.hr_history_count < 5 then
                t.hr_history_count + 1 else t.hr_history_count)).map
              (fun j => if j = t.hr_history_index then hr else t.hr_history j)))
          else m1_median_filter ((List.range (if t.hr_history_count < 5 then
                t.hr_history_count + 1 else t.hr_history_count)).map
              (fun j => if j = t.hr_history_index then hr else t.hr_history j)))
        + (1 - 0.2) * t.ema_hr) := rfl

/-- The Method 1 median filter of a nonempty list whose entries all lie in
`[lo, hi]` lies in `[lo, hi]`. -/
theorem m1_median_filter_range (l : List ℝ) (lo hi : ℝ) (hne : ¬l.length = 0)
    (hall : ∀ x ∈ l, lo ≤ x ∧ x ≤ hi) :
    lo ≤ m1_median_filter l ∧ m1_median_filter l ≤ hi := by
  have hpos : 0 < l.length := Nat.pos_of_ne_zero hne
  have hmid : l.length / 2 < l.length := Nat.div_lt_self hpos (by omega)
  have hm2 := hall _ (sortedList_getD_mem l (l.length / 2) hmid)
  simp only [m1_median_filter]
  rw [if_neg hne]
  by_cases hev : l.length % 2 = 0
  · rw [if_pos hev]
    have hmid1 : l.length / 2 - 1 < l.length := by omega
    have hm1 := hall _ (sortedList_getD_mem l (l.length / 2 - 1) hmid1)
    constructor <;> [linarith [hm1.1, hm2.1]; linarith [hm1.2, hm2.2]]
  · rw [if_neg hev]
    exact hm2

/-- The reachability invariant of Method 1's HR state: the published and EMA
values agree, the EMA is zero or a plausible BPM, validity implies a nonzero
EMA, the occupied median-ring slots hold accepted (hence in-range) BPM
values, and the ring bookkeeping is consistent. -/
def M1Inv (s : HRState) : Prop :=
  s.last_hr = s.ema_hr ∧
  (s.ema_hr = 0 ∨ 30 ≤ s.ema_hr) ∧
  (s.hr_valid = true → ¬s.ema_hr = 0) ∧
  (∀ i, i < s.hr_history_count → 30 ≤ s.hr_history i ∧ s.hr_history i ≤ 180) ∧
  s.hr_history_count ≤ 5 ∧
  (s.hr_history_count < 5 → s.hr_history_index = s.hr_history_count) ∧
  s.hr_history_index < 5

/-- The invariant holds at `HR_Init`. -/
theorem M1Inv_init : M1Inv HR_Init := by
  refine ⟨rfl, Or.inl rfl, ?_, ?_, ?_, ?_, ?_⟩
  · intro h
    exact absurd h (by simp [HR_Init])
  · intro i hi
    exact absurd hi (by simp [HR_Init])
  · show (0 : ℕ) ≤ 5
    omega
  · intro _
    rfl
  · show (0 : ℕ) < 5
    omega

/-- The invariant holds after `HR_Reset`. -/
theorem M1Inv_reset (s : HRState) : M1Inv (HR_Reset s) := by
  refine ⟨rfl, Or.inl rfl, ?_, ?_, ?_, ?_, ?_⟩
  · intro h
    exact absurd h (by simp [HR_Reset])
  · intro i hi
    exact absurd hi (by simp [HR_Reset])
  · show (0 : ℕ) ≤ 5
    omega
  · intro _
    rfl
  · show (0 : ℕ) < 5
    omega

/-- `HR_AddSample` touches none of the fields the invariant talks about. -/
theorem HR_AddSample_frame (s : HRState) (ac dc : ℝ) :
    (HR_AddSample s ac dc).last_hr = s.last_hr ∧
    (HR_AddSample s ac dc).ema_hr = s.ema_hr ∧
    (HR_AddSample s ac dc).hr_valid = s.hr_valid ∧
    (HR_AddSample s ac dc).hr_history = s.hr_history ∧
    (HR_AddSample s ac dc).hr_history_index = s.hr_history_index ∧
    (HR_AddSample s ac dc).hr_history_count = s.hr_history_count ∧
    (HR_AddSample s ac dc).stable_count = s.stable_count ∧
    (HR_AddSample s ac dc).consecutive_invalid = s.consecutive_invalid :=
  ⟨rfl, rfl, rfl, rfl, rfl, rfl, rfl, rfl⟩

/-- The invariant passes through `HR_AddSample`. -/
theorem M1Inv_add (s : HRState) (ac dc : ℝ) (h : M1Inv s) :
    M1Inv (HR_AddSample s ac dc) := h

/-- The invariant passes through the reject epilogue. -/
theorem M1Inv_reject (t : HRState) (h : M1Inv t) : M1Inv (m1Reject t).2 := by
  rcases m1Reject_cases t with ⟨_, heq⟩ | ⟨_, heq⟩
  · rw [heq]
    obtain ⟨h1, h2, h3, h4, h5, h6, h7⟩ := M1Inv_reset
      { t with consecutive_invalid := (t.consecutive_invalid + 1) % 256 }
    exact ⟨h1, h2, fun hv => absurd hv (by simp), h4, h5, h6, h7⟩
  · rw [heq]
    obtain ⟨h1, h2, h3, h4, h5, h6, h7⟩ := h
    exact ⟨h1, h2, fun hv => absurd hv (by simp), h4, h5, h6, h7⟩

/-- The accept epilogue under the invariant and an in-range candidate: the
invariant is preserved, the new EMA is a plausible BPM, and when the old EMA
was live the published value moves by at most `0.2 * MAX_HR_CHANGE`. -/
theorem m1Accept_props (t : HRState) (hr : ℝ) (hinv : M1Inv t)
    (h30 : 30 ≤ hr) (h180 : hr ≤ 180) :
    M1Inv (m1Accept t hr).2 ∧ 30 ≤ (m1Accept t hr).2.ema_hr ∧
    (0 < t.ema_hr → |(m1Accept t hr).2.ema_hr - t.ema_hr| ≤ 6 / 5) := by
  obtain ⟨hl, he, hv, hh, hc5, hic, hi5⟩ := hinv
  have hmem : ∀ x ∈ (List.range (if t.hr_history_count < 5 then
      t.hr_history_count + 1 else t.hr_history_count)).map
      (fun j => if j = t.hr_history_index then hr else t.hr_history j),
      30 ≤ x ∧ x ≤ 180 := by
    intro x hx
    obtain ⟨i, hi, rfl⟩ := List.mem_map.1 hx
    have hilt := List.mem_range.1 hi
    by_cases hie : i = t.hr_history_index
    · rw [if_pos hie]
      exact ⟨h30, h180⟩
    · rw [if_neg hie]
      refine hh i ?_
      by_cases h5 : t.hr_history_count < 5
      · have := hic h5
        rw [if_pos h5] at hilt
        omega
      · rw [if_neg h5] at hilt
        omega
  have hlen : ¬((List.range (if t.hr_history_count < 5 then
      t.hr_history_count + 1 else t.hr_history_count)).map
      (fun j => if j = t.hr_history_index then hr else t.hr_history j)).length = 0 := by
    rw [List.length_map, List.length_range]
    by_cases h5 : t.hr_history_count < 5
    · rw [if_pos h5]
      omega
    · rw [if_neg h5]
      omega
  have hfcb := m1_median_filter_range _ 30 180 hlen hmem
  have hE : 30 ≤ (m1Accept t hr).2.ema_hr ∧
      (0 < t.ema_hr → |(m1Accept t hr).2.ema_hr - t.ema_hr| ≤ 6 / 5) := by
    rw [m1Accept_ema]
    by_cases hz : t.ema_hr = 0
    · rw [if_pos hz, if_neg (by rw [hz]; exact lt_irrefl 0)]
      refine ⟨hfcb.1, ?_⟩
      intro hpos
      rw [hz] at hpos
      exact absurd hpos (lt_irrefl 0)
    · have h30e : 30 ≤ t.ema_hr := he.resolve_left hz
      have hpos : (0 : ℝ) < t.ema_hr := by linarith
      rw [if_neg hz, if_pos hpos]
      by_cases ha : 6 < m1_median_filter ((List.range (if t.hr_history_count < 5 then
          t.hr_history_count + 1 else t.hr_history_count)).map
          (fun j => if j = t.hr_history_index then hr else t.hr_history j)) - t.ema_hr
      · rw [if_pos ha]
        constructor
        · linarith
        · intro _
          rw [abs_le]
          constructor <;> linarith
      · rw [if_neg ha]
        by_cases hb : m1_median_filter ((List.range (if t.hr_history_count < 5 then
            t.hr_history_count + 1 else t.hr_history_count)).map
            (fun j => if j = t.hr_history_index then hr else t.hr_history j)) - t.ema_hr < -6
        · rw [if_pos hb]
          constructor
          · linarith [hfcb.1]
          · intro _
            rw [abs_le]
            constructor <;> linarith
        · rw [if_neg hb]
          constructor
          · linarith [hfcb.1]
          · intro _
            rw [abs_le]
            push_neg at ha hb
            constructor <;> linarith
  refine ⟨⟨(m1Accept_fields t hr).2.2.2.1, Or.inr hE.1, ?_, ?_, ?_, ?_, ?_⟩, hE.1, hE.2⟩
  · intro _
    intro h0
    rw [h0] at hE
    linarith [hE.1]
  · intro i hlt
    rw [(m1Accept_fields t hr).2.2.1] at hlt
    rw [(m1Accept_fields t hr).1 i]
    by_cases hie : i = t.hr_history_index
    · rw [if_pos hie]
      exact ⟨h30, h180⟩
    · rw [if_neg hie]
      refine hh i ?_
      by_cases h5 : t.hr_history_count < 5
      · have := hic h5
        rw [if_pos h5] at hlt
        omega
      · rw [if_neg h5] at hlt
        omega
  · rw [(m1Accept_fields t hr).2.2.1]
    by_cases h5 : t.hr_history_count < 5
    · rw [if_pos h5]
      omega
    · rw [if_neg h5]
      omega
  · rw [(m1Accept_fields t hr).2.2.1, (m1Accept_fields t hr).2.1]
    intro hlt
    by_cases h5 : t.hr_history_count < 5
    · have := hic h5
      rw [if_pos h5] at hlt ⊢
      omega
    · rw [if_neg h5] at hlt ⊢
      omega
  · rw [(m1Accept_fields t hr).2.1]
    exact Nat.mod_lt _ (by omega)

/-- The invariant is a statement about fields the mid state leaves alone. -/
theorem M1Inv_mid (s : HRState) (h : M1Inv s) : M1Inv (m1MidState s) := h

/-- The invariant is preserved by every `HR_Calculate` call. -/
theorem M1Inv_calc (s : HRState) (h : M1Inv s) : M1Inv (HR_Calculate s).2 := by
  by_cases hfull : s.buffer_full = false
  · rw [HR_Calculate_early s hfull]
    exact h
  · have hfull' : s.buffer_full = true := by
      revert hfull
      cases s.buffer_full <;> simp
    by_cases hq : assess_signal_quality s = 0
    · rw [HR_Calculate_quality s hfull' hq]
      exact M1Inv_reject _ h
    · by_cases h1 : (m1ScanRun s.buffer s.rolling_mean (m1Threshold s)).peaks.length < 2
      · rw [HR_Calculate_geom s hfull' hq (Or.inl h1)]
        exact M1Inv_reject _ (M1Inv_mid s h)
      · by_cases h2 : (m1Intervals
            (m1ScanRun s.buffer s.rolling_mean (m1Threshold s)).peaks.reverse).length < 2
        · rw [HR_Calculate_geom s hfull' hq (Or.inr (Or.inl h2))]
          exact M1Inv_reject _ (M1Inv_mid s h)
        · by_cases h3 : m1HrOf s < 30 ∨ 180 < m1HrOf s
          · rw [HR_Calculate_geom s hfull' hq (Or.inr (Or.inr h3))]
            exact M1Inv_reject _ (M1Inv_mid s h)
          · rw [HR_Calculate_accept s ⟨hfull', hq, h1, h2, h3⟩]
            push_neg at h3
            exact (m1Accept_props (m1MidState s) (m1HrOf s) (M1Inv_mid s h)
              h3.1 h3.2).1

/-- A `HR_Calculate` call that ends valid publishes the state's last HR,
which equals its EMA and is a plausible BPM. -/
theorem m1_calc_valid_shape (s : HRState) (h : M1Inv s)
    (hv : (HR_Calculate s).2.hr_valid = true) :
    (HR_Calculate s).1 = (HR_Calculate s).2.ema_hr ∧
    (HR_Calculate s).2.last_hr = (HR_Calculate s).2.ema_hr ∧
    30 ≤ (HR_Calculate s).2.ema_hr := by
  have hinv := h
  obtain ⟨hl, he, hvv, _, _, _, _⟩ := hinv
  by_cases hfull : s.buffer_full = false
  · rw [HR_Calculate_early s hfull] at hv ⊢
    have hnz := hvv hv
    exact ⟨hl, hl, he.resolve_left hnz⟩
  · have hfull' : s.buffer_full = true := by
      revert hfull
      cases s.buffer_full <;> simp
    by_cases hq : assess_signal_quality s = 0
    · rw [HR_Calculate_quality s hfull' hq] at hv
      exact absurd hv (by rw [(m1Reject_fields _).1]; simp)
    · by_cases h1 : (m1ScanRun s.buffer s.rolling_mean (m1Threshold s)).peaks.length < 2
      · rw [HR_Calculate_geom s hfull' hq (Or.inl h1)] at hv
        exact absurd hv (by rw [(m1Reject_fields _).1]; simp)
      · by_cases h2 : (m1Intervals
            (m1ScanRun s.buffer s.rolling_mean (m1Threshold s)).peaks.reverse).length < 2
        · rw [HR_Calculate_geom s hfull' hq (Or.inr (Or.inl h2))] at hv
          exact absurd hv (by rw [(m1Reject_fields _).1]; simp)
        · by_cases h3 : m1HrOf s < 30 ∨ 180 < m1HrOf s
          · rw [HR_Calculate_geom s hfull' hq (Or.inr (Or.inr h3))] at hv
            exact absurd hv (by rw [(m1Reject_fields _).1]; simp)
          · rw [HR_Calculate_accept s ⟨hfull', hq, h1, h2, h3⟩]
            push_neg at h3
            have hp := m1Accept_props (m1MidState s) (m1HrOf s) (M1Inv_mid s h) h3.1 h3.2
            exact ⟨(m1Accept_fields _ _).2.2.2.2.1, (m1Accept_fields _ _).2.2.2.1,
              hp.2.1⟩

/-- Running a list of `HR_AddSample` calls from a state. -/
def m1AddRun (s : HRState) (l : List (ℝ × ℝ)) : HRState :=
  l.foldl (fun t p => HR_AddSample t p.1 p.2) s

/-- `HR_AddSample` runs leave the whole smoothing/validation state alone. -/
theorem m1AddRun_frame (l : List (ℝ × ℝ)) : ∀ s : HRState,
    (m1AddRun s l).last_hr = s.last_hr ∧
    (m1AddRun s l).ema_hr = s.ema_hr ∧
    (m1AddRun s l).hr_valid = s.hr_valid ∧
    (m1AddRun s l).hr_history = s.hr_history ∧
    (m1AddRun s l).hr_history_index = s.hr_history_index ∧
    (m1AddRun s l).hr_history_count = s.hr_history_count := by
  induction l with
  | nil => exact fun s => ⟨rfl, rfl, rfl, rfl, rfl, rfl⟩
  | cons p tl ih =>
    intro s
    obtain ⟨a1, a2, a3, a4, a5, a6⟩ := ih (HR_AddSample s p.1 p.2)
    exact ⟨a1, a2, a3, a4, a5, a6⟩

/-- The invariant passes through an `HR_AddSample` run. -/
theorem M1Inv_addRun (l : List (ℝ × ℝ)) (s : HRState) (h : M1Inv s) :
    M1Inv (m1AddRun s l) := by
  obtain ⟨a1, a2, a3, a4, a5, a6⟩ := m1AddRun_frame l s
  obtain ⟨h1, h2, h3, h4, h5, h6, h7⟩ := h
  rw [M1Inv, a1, a2, a3, a4, a5, a6]
  exact ⟨h1, h2, h3, h4, h5, h6, h7⟩

/-- Core of C2 for Method 1: two `HR_Calculate` calls, separated by any
number of `HR_AddSample` calls, that both end valid publish values at most
`MAX_HR_CHANGE = 6` bpm apart. -/
theorem m1_consecutive_valid_bound (s : HRState) (h : M1Inv s)
    (mids : List (ℝ × ℝ))
    (hv1 : (HR_Calculate s).2.hr_valid = true)
    (hv2 : (HR_Calculate (m1AddRun (HR_Calculate s).2 mids)).2.hr_valid = true) :
    |(HR_Calculate (m1AddRun (HR_Calculate s).2 mids)).1 - (HR_Calculate s).1| ≤ 6 := by
  obtain ⟨hr1, hlast1, hge1⟩ := m1_calc_valid_shape s h hv1
  have h1 : M1Inv (HR_Calculate s).2 := M1Inv_calc s h
  obtain ⟨a1, a2, a3, a4, a5, a6⟩ := m1AddRun_frame mids (HR_Calculate s).2
  have h2 : M1Inv (m1AddRun (HR_Calculate s).2 mids) := M1Inv_addRun mids _ h1
  by_cases hfull : (m1AddRun (HR_Calculate s).2 mids).buffer_full = false
  · rw [HR_Calculate_early _ hfull]
    rw [hr1, a1, hlast1]
    simp
  · have hfull' : (m1AddRun (HR_Calculate s).2 mids).buffer_full = true := by
      revert hfull
      cases (m1AddRun (HR_Calculate s).2 mids).buffer_full <;> simp
    by_cases hq : assess_signal_quality (m1AddRun (HR_Calculate s).2 mids) = 0
    · rw [HR_Calculate_quality _ hfull' hq] at hv2
      exact absurd hv2 (by rw [(m1Reject_fields _).1]; simp)
    · by_cases g1 : (m1ScanRun (m1AddRun (HR_Calculate s).2 mids).buffer
          (m1AddRun (HR_Calculate s).2 mids).rolling_mean
          (m1Threshold (m1AddRun (HR_Calculate s).2 mids))).peaks.length < 2
      · rw [HR_Calculate_geom _ hfull' hq (Or.inl g1)] at hv2
        exact absurd hv2 (by rw [(m1Reject_fields _).1]; simp)
      · by_cases g2 : (m1Intervals (m1ScanRun (m1AddRun (HR_Calculate s).2 mids).buffer
            (m1AddRun (HR_Calculate s).2 mids).rolling_mean
            (m1Threshold (m1AddRun (HR_Calculate s).2 mids))).peaks.reverse).length < 2
        · rw [HR_Calculate_geom _ hfull' hq (Or.inr (Or.inl g2))] at hv2
          exact absurd hv2 (by rw [(m1Reject_fields _).1]; simp)
        · by_cases g3 : m1HrOf (m1AddRun (HR_Calculate s).2 mids) < 30 ∨
              180 < m1HrOf (m1AddRun (HR_Calculate s).2 mids)
          · rw [HR_Calculate_geom _ hfull' hq (Or.inr (Or.inr g3))] at hv2
            exact absurd hv2 (by rw [(m1Reject_fields _).1]; simp)
          · rw [HR_Calculate_accept _ ⟨hfull', hq, g1, g2, g3⟩]
            push_neg at g3
            have hp := m1Accept_props (m1MidState (m1AddRun (HR_Calculate s).2 mids))
              (m1HrOf (m1AddRun (HR_Calculate s).2 mids))
              (M1Inv_mid _ h2) g3.1 g3.2
            have hmid : (m1MidState (m1AddRun (HR_Calculate s).2 mids)).ema_hr =
                (HR_Calculate s).1 := by
              rw [show (m1MidState (m1AddRun (HR_Calculate s).2 mids)).ema_hr =
                (m1AddRun (HR_Calculate s).2 mids).ema_hr from rfl, a2, hr1]
            have hpos : 0 < (m1MidState (m1AddRun (HR_Calculate s).2 mids)).ema_hr := by
              rw [hmid, hr1]
              linarith
            have hd := hp.2.2 hpos
            rw [hmid] at hd
            rw [(m1Accept_fields _ _).2.2.2.2.1]
            rw [abs_le] at hd ⊢
            constructor <;> [linarith [hd.1]; linarith [hd.2]]

/-- C2: rate-limiting law. From any reachable state of either estimator, two
consecutive HR computations (for Method 1 separated by arbitrarily many
`HR_AddSample` calls) that both publish a valid heart rate differ by at most
the configured per-update cap: `MAX_HR_CHANGE = 6` bpm for Method 1's
`HR_Calculate` and `DPT_MAX_HR_CHANGE = 8` bpm for Method 2's `DPT_Process`,
whatever the raw candidate BPM did in between. -/
theorem hr_rate_limit_cap (s : HRState) (t : DPTState) (mids : List (ℝ × ℝ))
    (c1 c2 : ℕ) (r1 i1 r2 i2 : ℤ)
    (hm1 : M1Inv s) (hm2 : M2Inv t) :
    ((HR_Calculate s).2.hr_valid = false ∨
      (HR_Calculate (m1AddRun (HR_Calculate s).2 mids)).2.hr_valid = false ∨
      |(HR_Calculate (m1AddRun (HR_Calculate s).2 mids)).1 - (HR_Calculate s).1| ≤ 6) ∧
    ((DPT_Process c1 t r1 i1).hr_valid = false ∨
      (DPT_Process c2 (DPT_Process c1 t r1 i1) r2 i2).hr_valid = false ∨
      |(DPT_Process c2 (DPT_Process c1 t r1 i1) r2 i2).heart_rate -
        (DPT_Process c1 t r1 i1).heart_rate| ≤ 8) := by
  constructor
  · rcases Bool.eq_false_or_eq_true (HR_Calculate s).2.hr_valid with hv1 | hv1
    · rcases Bool.eq_false_or_eq_true
          (HR_Calculate (m1AddRun (HR_Calculate s).2 mids)).2.hr_valid with hv2 | hv2
      · exact Or.inr (Or.inr (m1_consecutive_valid_bound s hm1 mids hv1 hv2))
      · exact Or.inr (Or.inl hv2)
    · exact Or.inl hv1
  · rcases Bool.eq_false_or_eq_true (DPT_Process c1 t r1 i1).hr_valid with hw1 | hw1
    · rcases Bool.eq_false_or_eq_true
          (DPT_Process c2 (DPT_Process c1 t r1 i1) r2 i2).hr_valid with hw2 | hw2
      · exact Or.inr (Or.inr (m2_consecutive_valid_bound t hm2 c1 c2 r1 i1 r2 i2 hw1 hw2))
      · exact Or.inr (Or.inl hw2)
    · exact Or.inl hw1

/-- Witness: the C2 theorem applied at the two freshly initialized states. -/
theorem hr_rate_limit_cap_witness :
    M1Inv HR_Init ∧ M2Inv DPT_Init ∧
    (((HR_Calculate HR_Init).2.hr_valid = false ∨
      (HR_Calculate (m1AddRun (HR_Calculate HR_Init).2 [])).2.hr_valid = false ∨
      |(HR_Calculate (m1AddRun (HR_Calculate HR_Init).2 [])).1 -
        (HR_Calculate HR_Init).1| ≤ 6) ∧
    ((DPT_Process 0 DPT_Init 0 0).hr_valid = false ∨
      (DPT_Process 0 (DPT_Process 0 DPT_Init 0 0) 0 0).hr_valid = false ∨
      |(DPT_Process 0 (DPT_Process 0 DPT_Init 0 0) 0 0).heart_rate -
        (DPT_Process 0 DPT_Init 0 0).heart_rate| ≤ 8)) :=
  ⟨M1Inv_init, M2Inv_init,
    hr_rate_limit_cap HR_Init DPT_Init [] 0 0 0 0 0 0 M1Inv_init M2Inv_init⟩

/-- `HR_Calculate` never touches the ring-full flag on any path. -/
theorem HR_Calculate_full (s : HRState) :
    (HR_Calculate s).2.buffer_full = s.buffer_full := by
  by_cases hfull : s.buffer_full = false
  · rw [HR_Calculate_early s hfull]
  · have hfull' : s.buffer_full = true := by
      revert hfull
      cases s.buffer_full <;> simp
    by_cases hq : assess_signal_quality s = 0
    · rw [HR_Calculate_quality s hfull' hq]
      exact (m1Reject_fields _).2.2.1
    · by_cases h1 : (m1ScanRun s.buffer s.rolling_mean (m1Threshold s)).peaks.length < 2
      · rw [HR_Calculate_geom s hfull' hq (Or.inl h1)]
        exact (m1Reject_fields _).2.2.1
      · by_cases h2 : (m1Intervals
            (m1ScanRun s.buffer s.rolling_mean (m1Threshold s)).peaks.reverse).length < 2
        · rw [HR_Calculate_geom s hfull' hq (Or.inr (Or.inl h2))]
          exact (m1Reject_fields _).2.2.1
        · by_cases h3 : m1HrOf s < 30 ∨ 180 < m1HrOf s
          · rw [HR_Calculate_geom s hfull' hq (Or.inr (Or.inr h3))]
            exact (m1Reject_fields _).2.2.1
          · rw [HR_Calculate_accept s ⟨hfull', hq, h1, h2, h3⟩]
            exact (m1Accept_fields _ _).2.2.2.2.2.1

/-- Operations of the Method 1 API: add a sample, run a computation, or
reset. -/
inductive M1Op where
  | add : ℝ → ℝ → M1Op
  | hrCalc : M1Op
  | reset : M1Op

/-- One Method 1 API call. -/
def m1Step (s : HRState) : M1Op → HRState
  | M1Op.add ac dc => HR_AddSample s ac dc
  | M1Op.hrCalc => (HR_Calculate s).2
  | M1Op.reset => HR_Reset s

/-- A Method 1 API trace. -/
def m1Run (s : HRState) (ops : List M1Op) : HRState := ops.foldl m1Step s

/-- No Method 1 API call clears the ring-full flag. -/
theorem m1Step_full_mono (s : HRState) (op : M1Op) (h : s.buffer_full = true) :
    (m1Step s op).buffer_full = true := by
  cases op with
  | add ac dc =>
    show (if 160 ≤ s.buffer_index + 1 then true else s.buffer_full) = true
    rw [h]
    exact ite_self true
  | hrCalc =>
    rw [show (m1Step s M1Op.hrCalc) = (HR_Calculate s).2 from rfl, HR_Calculate_full, h]
  | reset => exact h

/-- The ring-full flag stays set along every Method 1 trace. -/
theorem m1Run_full_mono (ops : List M1Op) : ∀ s : HRState,
    s.buffer_full = true → (m1Run s ops).buffer_full = true := by
  induction ops with
  | nil => exact fun s h => h
  | cons op tl ih =>
    intro s h
    exact ih (m1Step s op) (m1Step_full_mono s op h)

/-- C4: monotonic buffer fill. Once a circular sample buffer reports full,
no later operation of the same session clears the flag: any Method 1 API
trace (samples, computations, resets) keeps the HR ring's flag set, Method
1's partial `HR_Reset` leaves the flag exactly as it was, and any Method 2
`DPT_Process` trace keeps both DPT history buffers' flags set. -/
theorem buffer_full_monotone (s : HRState) (t : DPTState)
    (ops : List M1Op) (l : List (ℕ × ℤ × ℤ))
    (h1 : s.buffer_full = true)
    (h2r : t.red_dpt.buffer_full = true) (h2i : t.ir_dpt.buffer_full = true) :
    (m1Run s ops).buffer_full = true ∧
    (∀ u : HRState, (HR_Reset u).buffer_full = u.buffer_full) ∧
    (dptRunFromState t l).red_dpt.buffer_full = true ∧
    (dptRunFromState t l).ir_dpt.buffer_full = true :=
  ⟨m1Run_full_mono ops s h1, fun _ => rfl,
    (dptRunFromState_full_mono l t).1 h2r,
    (dptRunFromState_full_mono l t).2 h2i⟩

/-- A Method 1 state whose ring reports full. -/
def c4HRState : HRState := { HR_Init with buffer_full := true }

/-- A Method 2 state whose history buffers report full. -/
def c4DPTState : DPTState :=
  { DPT_Init with
      red_dpt := { DPT_Init.red_dpt with buffer_full := true }
      ir_dpt := { DPT_Init.ir_dpt with buffer_full := true } }

/-- Witness: the C4 theorem applied at concrete full states. -/
theorem buffer_full_monotone_witness :
    c4HRState.buffer_full = true ∧ c4DPTState.red_dpt.buffer_full = true ∧
    c4DPTState.ir_dpt.buffer_full = true ∧
    ((m1Run c4HRState [M1Op.reset]).buffer_full = true ∧
      (∀ u : HRState, (HR_Reset u).buffer_full = u.buffer_full) ∧
      (dptRunFromState c4DPTState []).red_dpt.buffer_full = true ∧
      (dptRunFromState c4DPTState []).ir_dpt.buffer_full = true) :=
  ⟨rfl, rfl, rfl,
    buffer_full_monotone c4HRState c4DPTState [M1Op.reset] [] rfl rfl rfl⟩

/-- Flag update of the accepted-since-reset tracker for one API call: an
accepted computation raises it, a reset (explicit, or the auto-reset that
`HR_Calculate` performs itself) clears it, anything else keeps it. -/
def m1StepFlag (s : HRState) (f : Prop) : M1Op → Prop
  | M1Op.add _ _ => f
  | M1Op.hrCalc => m1Accepts s ∨ (¬ m1AutoResets s ∧ f)
  | M1Op.reset => False

/-- Whether some `HR_Calculate` call along the trace accepted a candidate HR
after the last reset event (explicit `reset` op or internal auto-reset),
starting from flag `f`. -/
def m1ValidSince : HRState → Prop → List M1Op → Prop
  | _, f, [] => f
  | s, f, op :: tl => m1ValidSince (m1Step s op) (m1StepFlag s f op) tl

/-- One `HR_Calculate` call preserves the zero-EMA/flag correspondence. -/
theorem m1Flag_calc (s : HRState) (f : Prop) (hinv : M1Inv s)
    (hiff : s.ema_hr = 0 ↔ ¬ f) :
    ((HR_Calculate s).2.ema_hr = 0 ↔ ¬ (m1Accepts s ∨ (¬ m1AutoResets s ∧ f))) := by
  by_cases hfull : s.buffer_full = false
  · rw [HR_Calculate_early s hfull]
    have hnacc : ¬ m1Accepts s := by
      intro h
      have := h.1
      rw [hfull] at this
      exact Bool.false_ne_true this
    have hnauto : ¬ m1AutoResets s := by
      intro h
      have := h.1
      rw [hfull] at this
      exact Bool.false_ne_true this
    constructor
    · intro h0 hor
      rcases hor with hacc | ⟨_, hf⟩
      · exact hnacc hacc
      · exact (hiff.1 h0) hf
    · intro hn
      exact hiff.2 (fun hf => hn (Or.inr ⟨hnauto, hf⟩))
  · have hfull' : s.buffer_full = true := by
      revert hfull
      cases s.buffer_full <;> simp
    by_cases hq : assess_signal_quality s = 0
    · rw [HR_Calculate_quality s hfull' hq]
      have hnacc : ¬ m1Accepts s := fun h => h.2.1 hq
      rcases m1Reject_cases { s with signal_quality := assess_signal_quality s }
        with ⟨hci, heq⟩ | ⟨hci, heq⟩
      · rw [heq]
        have hauto : m1AutoResets s := ⟨hfull', hq, hci⟩
        constructor
        · intro _ hor
          rcases hor with hacc | ⟨hna, _⟩
          · exact hnacc hacc
          · exact hna hauto
        · intro _
          rfl
      · rw [heq]
        have hnauto : ¬ m1AutoResets s := fun h => hci h.2.2
        constructor
        · intro h0 hor
          rcases hor with hacc | ⟨_, hf⟩
          · exact hnacc hacc
          · exact (hiff.1 h0) hf
        · intro hn
          exact hiff.2 (fun hf => hn (Or.inr ⟨hnauto, hf⟩))
    · have hnauto : ¬ m1AutoResets s := fun h => hq h.2.1
      have hreject : ¬ m1Accepts s → (HR_Calculate s = m1Reject (m1MidState s)) →
          ((HR_Calculate s).2.ema_hr = 0 ↔
            ¬ (m1Accepts s ∨ (¬ m1AutoResets s ∧ f))) := by
        intro hnacc heqc
        rw [heqc]
        rcases m1Reject_cases (m1MidState s) with ⟨hci, heq⟩ | ⟨hci, heq⟩
        · exfalso
          have hz : (m1MidState s).consecutive_invalid = 0 := rfl
          rw [hz] at hci
          omega
        · rw [heq]
          constructor
          · intro h0 hor
            rcases hor with hacc | ⟨_, hf⟩
            · exact hnacc hacc
            · exact (hiff.1 h0) hf
          · intro hn
            exact hiff.2 (fun hf => hn (Or.inr ⟨hnauto, hf⟩))
      by_cases h1 : (m1ScanRun s.buffer s.rolling_mean (m1Threshold s)).peaks.length < 2
      · exact hreject (fun h => h.2.2.1 h1) (HR_Calculate_geom s hfull' hq (Or.inl h1))
      · by_cases h2 : (m1Intervals
            (m1ScanRun s.buffer s.rolling_mean (m1Threshold s)).peaks.reverse).length < 2
        · exact hreject (fun h => h.2.2.2.1 h2)
            (HR_Calculate_geom s hfull' hq (Or.inr (Or.inl h2)))
        · by_cases h3 : m1HrOf s < 30 ∨ 180 < m1HrOf s
          · exact hreject (fun h => h.2.2.2.2 h3)
              (HR_Calculate_geom s hfull' hq (Or.inr (Or.inr h3)))
          · rw [HR_Calculate_accept s ⟨hfull', hq, h1, h2, h3⟩]
            push_neg at h3
            have hge := (m1Accept_props (m1MidState s) (m1HrOf s)
              (M1Inv_mid s hinv) h3.1 h3.2).2.1
            constructor
            · intro h0
              rw [h0] at hge
              linarith
            · intro hn
              exact absurd (Or.inl ⟨hfull', hq, h1, h2, by
                push_neg
                exact h3⟩) hn

/-- Each API call preserves the zero-EMA/flag correspondence. -/
theorem m1Flag_step (s : HRState) (f : Prop) (op : M1Op) (hinv : M1Inv s)
    (hiff : s.ema_hr = 0 ↔ ¬ f) :
    ((m1Step s op).ema_hr = 0 ↔ ¬ m1StepFlag s f op) := by
  cases op with
  | add ac dc => exact hiff
  | hrCalc => exact m1Flag_calc s f hinv hiff
  | reset =>
    constructor
    · intro _
      exact not_false
    · intro _
      rfl

/-- One API call preserves the invariant. -/
theorem M1Inv_step (s : HRState) (op : M1Op) (h : M1Inv s) : M1Inv (m1Step s op) := by
  cases op with
  | add ac dc => exact M1Inv_add s ac dc h
  | hrCalc => exact M1Inv_calc s h
  | reset => exact M1Inv_reset s

/-- The zero-EMA/flag correspondence holds along every trace. -/
theorem m1ValidSince_iff (ops : List M1Op) : ∀ (s : HRState) (f : Prop),
    M1Inv s → (s.ema_hr = 0 ↔ ¬ f) →
    ((m1Run s ops).ema_hr = 0 ↔ ¬ m1ValidSince s f ops) := by
  induction ops with
  | nil => exact fun s f _ hiff => hiff
  | cons op tl ih =>
    intro s f hinv hiff
    exact ih (m1Step s op) (m1StepFlag s f op) (M1Inv_step s op hinv)
      (m1Flag_step s f op hinv hiff)

/-- C8: along any Method 1 API trace from `HR_Init`, the EMA-smoothed heart
rate is zero exactly when no `HR_Calculate` call has accepted a candidate HR
since the last reset event; every reject path leaves a zero EMA at zero, the
first accepted computation makes it nonzero (at least 30 bpm), and it stays
nonzero until the next `HR_Reset` — whether requested through the API or
performed internally by `HR_Calculate` after two consecutive poor-quality
computations, which is itself a call to `HR_Reset`. -/
theorem ema_zero_iff_no_valid_since_reset (ops : List M1Op) :
    (m1Run HR_Init ops).ema_hr = 0 ↔ ¬ m1ValidSince HR_Init False ops :=
  m1ValidSince_iff ops HR_Init False M1Inv_init
    ⟨fun _ => not_false, fun _ => rfl⟩

/-- The published Method 1 outputs (value and validity of each
`HR_Calculate`) along an API trace. -/
def m1OutSeq : HRState → List M1Op → List (ℝ × Bool)
  | _, [] => []
  | s, M1Op.hrCalc :: tl =>
    ((HR_Calculate s).1, (HR_Calculate s).2.hr_valid) :: m1OutSeq (HR_Calculate s).2 tl
  | s, op :: tl => m1OutSeq (m1Step s op) tl

/-- The published Method 1 SpO2 outputs along a sequence of
`SpO2_Calculate` calls with (red AC RMS, red DC, IR AC RMS, IR DC) inputs. -/
def spo2OutSeq : SpO2State → List (ℝ × ℝ × ℝ × ℝ) → List (ℝ × Bool)
  | _, [] => []
  | s, e :: tl =>
    ((SpO2_Calculate s e.1 e.2.1 e.2.2.1 e.2.2.2).2,
      (SpO2_Calculate s e.1 e.2.1 e.2.2.1 e.2.2.2).1.spo2_valid) ::
      spo2OutSeq (SpO2_Calculate s e.1 e.2.1 e.2.2.1 e.2.2.2).1 tl

/-- C9: determinism. Replaying the same input sequence through freshly
initialized estimators reproduces the published output sequences exactly:
Method 1's HR and SpO2 outputs are functions of the API trace alone, and
Method 2's published outputs from `DPT_Init` depend only on the (red, ir)
sample payloads — the DWT cycle-counter readings stored for diagnostics may
differ arbitrarily between the two runs without affecting any output. -/
theorem estimator_deterministic (ops1 ops2 : List M1Op)
    (ins1 ins2 : List (ℝ × ℝ × ℝ × ℝ)) (l1 l2 : List (ℕ × ℤ × ℤ))
    (hops : ops1 = ops2) (hins : ins1 = ins2)
    (hpay : l1.map (fun e => e.2) = l2.map (fun e => e.2)) :
    m1OutSeq HR_Init ops1 = m1OutSeq HR_Init ops2 ∧
    spo2OutSeq SpO2_Init ins1 = spo2OutSeq SpO2_Init ins2 ∧
    m2OutSeq DPT_Init l1 = m2OutSeq DPT_Init l2 :=
  ⟨hops ▸ rfl, hins ▸ rfl, m2OutSeq_cycle_indep l1 l2 DPT_Init DPT_Init hpay rfl⟩

/-- Witness: the C9 theorem at concrete traces whose Method 2 cycle readings
differ. -/
theorem estimator_deterministic_witness :
    ([M1Op.hrCalc] : List M1Op) = [M1Op.hrCalc] ∧
    ([((2 : ℝ), (3 : ℝ), (4 : ℝ), (5 : ℝ))] : List (ℝ × ℝ × ℝ × ℝ)) =
      [((2 : ℝ), (3 : ℝ), (4 : ℝ), (5 : ℝ))] ∧
    ([((0 : ℕ), (5 : ℤ), (7 : ℤ))] : List (ℕ × ℤ × ℤ)).map (fun e => e.2) =
      ([((3 : ℕ), (5 : ℤ), (7 : ℤ))] : List (ℕ × ℤ × ℤ)).map (fun e => e.2) ∧
    (m1OutSeq HR_Init [M1Op.hrCalc] = m1OutSeq HR_Init [M1Op.hrCalc] ∧
      spo2OutSeq SpO2_Init [((2 : ℝ), (3 : ℝ), (4 : ℝ), (5 : ℝ))] =
        spo2OutSeq SpO2_Init [((2 : ℝ), (3 : ℝ), (4 : ℝ), (5 : ℝ))] ∧
      m2OutSeq DPT_Init [((0 : ℕ), (5 : ℤ), (7 : ℤ))] =
        m2OutSeq DPT_Init [((3 : ℕ), (5 : ℤ), (7 : ℤ))]) :=
  ⟨rfl, rfl, rfl,
    estimator_deterministic [M1Op.hrCalc] [M1Op.hrCalc]
      [((2 : ℝ), (3 : ℝ), (4 : ℝ), (5 : ℝ))] [((2 : ℝ), (3 : ℝ), (4 : ℝ), (5 : ℝ))]
      [((0 : ℕ), (5 : ℤ), (7 : ℤ))] [((3 : ℕ), (5 : ℤ), (7 : ℤ))] rfl rfl rfl⟩
